import Mathlib

/-!
Verification of the grid-trading order-lifecycle manager
(`GridOrderManager` / `GridTradingStrategy`,
`src/strategies/grid_order_manager.py` and `src/strategies/grid_trading.py`).

The Python code is shallowly embedded: prices and quantities are modelled as
rationals, broker calls become explicit oracle functions (`Option`/`Except`
results model caught exceptions), and in-place mutation of the per-symbol
`GridState` becomes explicit state passing.  Python `round(x, 2)` (round half
to even at two decimals) is modelled by `round2`.  Python truthiness tests on
optional strings (`if not level.order_id`) are modelled by testing for `none`
or the empty string.
-/

/-- A Python `datetime` value, represented by its ISO-8601 rendering, which is
the only view of it the grid manager ever serializes or parses. -/
structure Datetime where
  iso : String
deriving Repr, DecidableEq

/-- Round-half-to-even of a rational to an integer, the rounding mode of
Python's builtin `round`. -/
def roundHalfEven (q : ℚ) : Int :=
  if q - ⌊q⌋ < 1/2 then ⌊q⌋
  else if q - ⌊q⌋ > 1/2 then ⌊q⌋ + 1
  else if ⌊q⌋ % 2 = 0 then ⌊q⌋ else ⌊q⌋ + 1

/-- Python `round(x, 2)`: round to two decimal places, half to even. -/
def round2 (q : ℚ) : ℚ := (roundHalfEven (q * 100) : ℚ) / 100

/-- One price rung of the grid (`class GridLevel`). -/
structure GridLevel where
  level : Int
  price : ℚ
  order_type : String
  order_id : Option String := none
  status : String := "pending"
  filled_qty : ℚ := 0
  filled_price : Option ℚ := none
deriving Repr, DecidableEq

/-- Per-symbol grid state (`class GridState`). -/
structure GridState where
  symbol : String
  center_price : ℚ
  qty_per_level : ℚ
  levels : List GridLevel := []
  total_invested : ℚ := 0
  realized_profit : ℚ := 0
  status : String := "active"
  last_updated : Datetime
deriving Repr, DecidableEq

/-- `GridState.get_level`: first level whose index equals `n` (Python returns
the first matching element of the list). -/
def GridState.get_level (g : GridState) (n : Int) : Option GridLevel :=
  g.levels.find? (fun l => l.level == n)

/-- `GridState.get_open_orders`. -/
def GridState.get_open_orders (g : GridState) : List GridLevel :=
  g.levels.filter (fun l => l.status == "open")

/-- `GridState.get_filled_buys`. -/
def GridState.get_filled_buys (g : GridState) : List GridLevel :=
  g.levels.filter (fun l => l.order_type == "buy" && l.status == "filled")

/-- The JSON dictionary produced by `GridLevel.to_dict`.  Keys that
`from_dict` reads with `.get` and a default are `Option`-valued so that
absent keys can be represented; `order_id` and `filled_price` are nullable
in Python, which coincides with key absence under `.get`. -/
structure GridLevelDict where
  level : Int
  price : ℚ
  order_type : String
  order_id : Option String
  status : Option String
  filled_qty : Option ℚ
  filled_price : Option ℚ
deriving Repr, DecidableEq

/-- `GridLevel.to_dict`. -/
def GridLevel.to_dict (l : GridLevel) : GridLevelDict :=
  { level := l.level
    price := l.price
    order_type := l.order_type
    order_id := l.order_id
    status := some l.status
    filled_qty := some l.filled_qty
    filled_price := l.filled_price }

/-- `GridLevel.from_dict` (defaults: status `pending`, filled_qty `0`). -/
def GridLevel.from_dict (d : GridLevelDict) : GridLevel :=
  { level := d.level
    price := d.price
    order_type := d.order_type
    order_id := d.order_id
    status := d.status.getD "pending"
    filled_qty := d.filled_qty.getD 0
    filled_price := d.filled_price }

/-- The JSON dictionary produced by `GridState.to_dict`. -/
structure GridStateDict where
  symbol : String
  center_price : ℚ
  qty_per_level : Option ℚ
  levels : Option (List GridLevelDict)
  total_invested : Option ℚ
  realized_profit : Option ℚ
  status : Option String
  last_updated : Option String
deriving Repr, DecidableEq

/-- `GridState.to_dict`; `last_updated` is serialized via `isoformat()`. -/
def GridState.to_dict (g : GridState) : GridStateDict :=
  { symbol := g.symbol
    center_price := g.center_price
    qty_per_level := some g.qty_per_level
    levels := some (g.levels.map GridLevel.to_dict)
    total_invested := some g.total_invested
    realized_profit := some g.realized_profit
    status := some g.status
    last_updated := some g.last_updated.iso }

/-- `GridState.from_dict` followed by `GridState.__init__`.  The
`if data.get("last_updated")` truthiness test fails on an absent key or the
empty string, in which case `__init__` falls back to `datetime.utcnow()`,
passed here as `now`. -/
def GridState.from_dict (d : GridStateDict) (now : Datetime) : GridState :=
  let parsedLevels := (d.levels.getD []).map GridLevel.from_dict
  let lu : Option Datetime :=
    match d.last_updated with
    | some s => if s = "" then none else some ⟨s⟩
    | none => none
  { symbol := d.symbol
    center_price := d.center_price
    qty_per_level := d.qty_per_level.getD 0
    levels := parsedLevels
    total_invested := d.total_invested.getD 0
    realized_profit := d.realized_profit.getD 0
    status := d.status.getD "active"
    last_updated := lu.getD now }

/-- `GridOrderManager.initialize_grid`: `num_levels` buy levels below center
and `num_levels` sell levels above, prices rounded to two decimals, all
`pending`; the grid starts `active` with zero accounting. -/
def initialize_grid (symbol : String) (center_price spacing_pct : ℚ)
    (num_levels : Nat) (qty_per_level : ℚ) (now : Datetime) : GridState :=
  let buys := (List.range num_levels).map fun (k : Nat) =>
    ({ level := -((k : Int) + 1)
       price := round2 (center_price * (1 - spacing_pct / 100 * ((k : ℚ) + 1)))
       order_type := "buy" } : GridLevel)
  let sells := (List.range num_levels).map fun (k : Nat) =>
    ({ level := (k : Int) + 1
       price := round2 (center_price * (1 + spacing_pct / 100 * ((k : ℚ) + 1)))
       order_type := "sell" } : GridLevel)
  { symbol := symbol
    center_price := center_price
    qty_per_level := qty_per_level
    levels := buys ++ sells
    status := "active"
    last_updated := now }

/-- The manager-level effect of `initialize_grid`: `self.grids[symbol] = grid`
overwrites any prior grid for that symbol. -/
def initialize_grid_mgr (grids : String → Option GridState) (symbol : String)
    (center_price spacing_pct : ℚ) (num_levels : Nat) (qty_per_level : ℚ)
    (now : Datetime) : (String → Option GridState) × GridState :=
  let g := initialize_grid symbol center_price spacing_pct num_levels qty_per_level now
  (fun s => if s = symbol then some g else grids s, g)

/-- Loop body of `place_grid_orders`: submit a limit order for every
`pending` buy level; a successful submission records the order id and opens
the level, a broker exception (`none`) leaves the level `pending`. -/
def placeLoop (qty : ℚ) (place : Int → ℚ → ℚ → Option String) :
    List GridLevel → List GridLevel × Nat
  | [] => ([], 0)
  | l :: ls =>
    let r := placeLoop qty place ls
    if l.status = "pending" ∧ l.order_type = "buy" then
      match place l.level l.price qty with
      | some oid => ({ l with order_id := some oid, status := "open" } :: r.1, r.2 + 1)
      | none => (l :: r.1, r.2)
    else (l :: r.1, r.2)

/-- Result of `place_grid_orders`; `persisted` records whether
`save_state` ran. -/
structure PlaceOutcome where
  grid : Option GridState
  placed : Nat
  persisted : Bool
deriving Repr, DecidableEq

/-- `GridOrderManager.place_grid_orders`.  `place lvl price qty` models
`alpaca_client.place_limit_order` and returns the new order id, or `none`
for a caught exception.  A missing or non-active grid returns 0 without
mutation or persistence. -/
def place_grid_orders (grid? : Option GridState)
    (place : Int → ℚ → ℚ → Option String) (now : Datetime) : PlaceOutcome :=
  match grid? with
  | none => ⟨none, 0, false⟩
  | some grid =>
    if grid.status = "active" then
      let r := placeLoop grid.qty_per_level place grid.levels
      ⟨some { grid with levels := r.1, last_updated := now }, r.2, true⟩
    else ⟨some grid, 0, false⟩

/-- A broker order record as returned by `alpaca_client.get_order`. -/
structure BrokerOrder where
  status : String
  filled_qty : ℚ
  filled_avg_price : ℚ
deriving Repr, DecidableEq

/-- Broker oracle for `check_and_update_orders`: the open-order-id set
(`Except.error` models a thrown exception), order lookup (`none` models a
thrown exception), and the two limit-order placements, keyed by the level
index, limit price and quantity they are invoked with. -/
structure UpdBroker where
  open_orders : Except String (List String)
  get_order : String → Option BrokerOrder
  place_sell : Int → ℚ → ℚ → Option String
  place_buy : Int → ℚ → ℚ → Option String

/-- Loop context of `check_and_update_orders`. -/
structure UpdCtx where
  center_price : ℚ
  qty_per_level : ℚ
  openIds : List String
  get_order : String → Option BrokerOrder
  place_sell : Int → ℚ → ℚ → Option String
  place_buy : Int → ℚ → ℚ → Option String

/-- Mutable state of the reconciliation loop: the (growing) level list, the
current iteration index and the accounting and result counters. -/
structure UpdSt where
  ls : List GridLevel
  i : Nat
  total_invested : ℚ
  realized_profit : ℚ
  buys_filled : Nat
  sells_filled : Nat
  orders_placed : Nat
deriving Repr

/-- In-place update of the first list element satisfying `p`, the effect of
mutating the object returned by `GridState.get_level`. -/
def updateFirst (p : GridLevel → Bool) (f : GridLevel → GridLevel) :
    List GridLevel → List GridLevel
  | [] => []
  | l :: ls => if p l then f l :: ls else l :: updateFirst p f ls

/-- One iteration of the `for level in grid.levels` loop of
`check_and_update_orders` at index `st.i`.  A level is examined only when it
is `open` with a truthy order id; an id still in the broker's open set, a
failed `get_order`, or a non-terminal broker status leave it untouched.  A
filled buy books `filled_price * filled_qty` into `total_invested` and
places a sell one rung up, priced with the hardcoded `2.0` percent spacing
of the source; the rung's existing level (if any) is re-opened with the new
id, otherwise a new sell level is appended.  A filled sell books profit
against the center price, subtracts the sell's own proceeds from
`total_invested` and re-opens the rung one below with a fresh buy order.
A `canceled`/`cancelled`/`expired` status marks the level `cancelled`. -/
def updStep (ctx : UpdCtx) (st : UpdSt) : UpdSt :=
  match st.ls[st.i]? with
  | none => { st with i := st.i + 1 }
  | some l =>
    match l.order_id with
    | none => { st with i := st.i + 1 }
    | some oid =>
      if l.status = "open" ∧ oid ≠ "" then
        if oid ∈ ctx.openIds then { st with i := st.i + 1 }
        else
          match ctx.get_order oid with
          | none => { st with i := st.i + 1 }
          | some o =>
            if o.status = "filled" then
              let lf : GridLevel :=
                { l with
                  status := "filled"
                  filled_qty := o.filled_qty
                  filled_price := some o.filled_avg_price }
              let ls1 := st.ls.set st.i lf
              if l.order_type = "buy" then
                let inv1 := st.total_invested + o.filled_avg_price * o.filled_qty
                let sellLevel : Int := l.level + 1
                let sellPrice : ℚ := ctx.center_price * (1 + 2/100 * (sellLevel : ℚ))
                match ctx.place_sell l.level (round2 sellPrice) o.filled_qty with
                | none =>
                  { st with
                    ls := ls1
                    i := st.i + 1
                    total_invested := inv1
                    buys_filled := st.buys_filled + 1 }
                | some sid =>
                  let ls2 :=
                    if ls1.any (fun x => x.level == sellLevel) then
                      updateFirst (fun x => x.level == sellLevel)
                        (fun x => { x with order_id := some sid, status := "open" }) ls1
                    else
                      ls1 ++ [{ level := sellLevel, price := round2 sellPrice,
                                order_type := "sell", order_id := some sid,
                                status := "open", filled_qty := 0, filled_price := none }]
                  { st with
                    ls := ls2
                    i := st.i + 1
                    total_invested := inv1
                    buys_filled := st.buys_filled + 1
                    orders_placed := st.orders_placed + 1 }
              else if l.order_type = "sell" then
                let prof := (o.filled_avg_price - ctx.center_price) * o.filled_qty
                let inv1 := st.total_invested - o.filled_avg_price * o.filled_qty
                let buyLevel : Int := l.level - 1
                let buyPrice : ℚ := ctx.center_price * (1 - 2/100 * (buyLevel.natAbs : ℚ))
                match ctx.place_buy buyLevel (round2 buyPrice) ctx.qty_per_level with
                | none =>
                  { st with
                    ls := ls1
                    i := st.i + 1
                    realized_profit := st.realized_profit + prof
                    total_invested := inv1
                    sells_filled := st.sells_filled + 1 }
                | some bid =>
                  let ls2 := updateFirst (fun x => x.level == buyLevel)
                      (fun x => { x with
                                  order_id := some bid
                                  status := "open"
                                  filled_qty := 0
                                  filled_price := none }) ls1
                  { st with
                    ls := ls2
                    i := st.i + 1
                    realized_profit := st.realized_profit + prof
                    total_invested := inv1
                    sells_filled := st.sells_filled + 1
                    orders_placed := st.orders_placed + 1 }
              else
                { st with ls := ls1, i := st.i + 1 }
            else if o.status = "canceled" ∨ o.status = "cancelled" ∨ o.status = "expired" then
              { st with ls := st.ls.set st.i { l with status := "cancelled" }, i := st.i + 1 }
            else { st with i := st.i + 1 }
      else { st with i := st.i + 1 }

/-- The reconciliation loop; `fuel` bounds the number of iterations.  The
Python loop iterates by index over a list that can only grow by one appended
sell level per filled buy, so `2 * length + 1` iterations always suffice. -/
def updLoop (ctx : UpdCtx) : Nat → UpdSt → UpdSt
  | 0, st => st
  | fuel + 1, st =>
    if st.i < st.ls.length then updLoop ctx fuel (updStep ctx st) else st

/-- The fill/placement counters returned by `check_and_update_orders`. -/
structure UpdResults where
  buys_filled : Nat
  sells_filled : Nat
  orders_placed : Nat
deriving Repr, DecidableEq

/-- Result of `check_and_update_orders`; `persisted` records whether
`save_state` ran (it does not when the grid is missing/non-active or the
open-order fetch throws). -/
structure UpdOutcome where
  grid : Option GridState
  results : UpdResults
  persisted : Bool
deriving Repr, DecidableEq

/-- `GridOrderManager.check_and_update_orders`. -/
def check_and_update_orders (grid? : Option GridState) (bk : UpdBroker)
    (now : Datetime) : UpdOutcome :=
  match grid? with
  | none => ⟨none, ⟨0, 0, 0⟩, false⟩
  | some grid =>
    if grid.status = "active" then
      match bk.open_orders with
      | .error _ => ⟨some grid, ⟨0, 0, 0⟩, false⟩
      | .ok ids =>
        let ctx : UpdCtx :=
          ⟨grid.center_price, grid.qty_per_level, ids,
           bk.get_order, bk.place_sell, bk.place_buy⟩
        let st0 : UpdSt := ⟨grid.levels, 0, grid.total_invested, grid.realized_profit, 0, 0, 0⟩
        let st1 := updLoop ctx (2 * grid.levels.length + 1) st0
        ⟨some { grid with
                levels := st1.ls
                total_invested := st1.total_invested
                realized_profit := st1.realized_profit
                last_updated := now },
         ⟨st1.buys_filled, st1.sells_filled, st1.orders_placed⟩, true⟩
    else ⟨some grid, ⟨0, 0, 0⟩, false⟩

/-- Loop body of `cancel_all_orders`: every `open` level with a truthy order
id is cancelled at the broker; a cancel exception (`cancel oid = false`)
leaves the level `open`. -/
def cancelLoop (cancel : String → Bool) : List GridLevel → List GridLevel × Nat
  | [] => ([], 0)
  | l :: ls =>
    let r := cancelLoop cancel ls
    match l.order_id with
    | some oid =>
      if l.status = "open" ∧ oid ≠ "" then
        if cancel oid then ({ l with status := "cancelled" } :: r.1, r.2 + 1)
        else (l :: r.1, r.2)
      else (l :: r.1, r.2)
    | none => (l :: r.1, r.2)

/-- Result of `cancel_all_orders`. -/
structure CancelOutcome where
  grid : Option GridState
  cancelled : Nat
  persisted : Bool
deriving Repr, DecidableEq

/-- `GridOrderManager.cancel_all_orders`: cancels open orders and always sets
the grid `stopped`. -/
def cancel_all_orders (grid? : Option GridState) (cancel : String → Bool)
    (now : Datetime) : CancelOutcome :=
  match grid? with
  | none => ⟨none, 0, false⟩
  | some grid =>
    let r := cancelLoop cancel grid.levels
    ⟨some { grid with levels := r.1, status := "stopped", last_updated := now }, r.2, true⟩

/-- Result of `stop_grid`; `realized_profit = none` models the
`{"error": "Grid not found"}` return. -/
structure StopOutcome where
  grid : Option GridState
  orders_cancelled : Nat
  positions_closed : Nat
  realized_profit : Option ℚ
deriving Repr, DecidableEq

/-- `GridOrderManager.stop_grid`: cancel all orders, then close any broker
position when some buys are filled.  `positions` is the symbol list from
`get_positions` (`none` models a thrown exception) and `closeOk` whether
`close_position` succeeds. -/
def stop_grid (grid? : Option GridState) (cancel : String → Bool)
    (positions : Option (List String)) (closeOk : Bool) (now : Datetime) : StopOutcome :=
  match grid? with
  | none => ⟨none, 0, 0, none⟩
  | some grid =>
    let c := cancel_all_orders (some grid) cancel now
    match c.grid with
    | none => ⟨none, c.cancelled, 0, none⟩
    | some g1 =>
      let filled_buys := g1.levels.filter (fun l => l.order_type == "buy" && l.status == "filled")
      let positions_closed :=
        if filled_buys.isEmpty then 0
        else
          match positions with
          | none => 0
          | some ps => if grid.symbol ∈ ps ∧ closeOk then 1 else 0
      ⟨some { g1 with status := "stopped" }, c.cancelled, positions_closed,
       some g1.realized_profit⟩

/-- The read-only projection returned by `get_grid_status`. -/
structure GridStatusView where
  symbol : String
  status : String
  center_price : ℚ
  open_buy_orders : Nat
  open_sell_orders : Nat
  filled_positions : Nat
  total_invested : ℚ
  realized_profit : ℚ
  last_updated : Option String
deriving Repr, DecidableEq

/-- `GridOrderManager.get_grid_status`. -/
def get_grid_status (grid? : Option GridState) : Option GridStatusView :=
  match grid? with
  | none => none
  | some grid =>
    some { symbol := grid.symbol
           status := grid.status
           center_price := grid.center_price
           open_buy_orders :=
             (grid.levels.filter (fun l => l.order_type == "buy" && l.status == "open")).length
           open_sell_orders :=
             (grid.levels.filter (fun l => l.order_type == "sell" && l.status == "open")).length
           filled_positions :=
             (grid.levels.filter (fun l => l.order_type == "buy" && l.status == "filled")).length
           total_invested := grid.total_invested
           realized_profit := grid.realized_profit
           last_updated := some grid.last_updated.iso }

/-- Result of `recenter_grid`. -/
structure RecenterOutcome where
  grid : Option GridState
  ok : Bool
deriving Repr, DecidableEq

/-- `GridOrderManager.recenter_grid`: cancel existing orders, reinitialize
around the new center preserving `qty_per_level`, place the new buy orders. -/
def recenter_grid (symbol : String) (grid? : Option GridState)
    (new_center spacing_pct : ℚ) (num_levels : Nat) (cancel : String → Bool)
    (place : Int → ℚ → ℚ → Option String) (now : Datetime) : RecenterOutcome :=
  match grid? with
  | none => ⟨none, false⟩
  | some grid =>
    let _ := cancel_all_orders (some grid) cancel now
    let g2 := initialize_grid symbol new_center spacing_pct num_levels grid.qty_per_level now
    let p := place_grid_orders (some g2) place now
    ⟨p.grid, true⟩

/-- `GridTradingStrategy._check_boundary_break`. -/
def check_boundary_break (grid? : Option GridState) (current_price boundary_stop_pct : ℚ) : Bool :=
  match get_grid_status grid? with
  | none => false
  | some s =>
    decide (current_price > s.center_price * (1 + boundary_stop_pct / 100)) ||
    decide (current_price < s.center_price * (1 - boundary_stop_pct / 100))

/-- `GridTradingStrategy._check_recenter_needed`. -/
def check_recenter_needed (grid? : Option GridState) (current_price recenter_threshold_pct : ℚ) : Bool :=
  match get_grid_status grid? with
  | none => false
  | some s =>
    decide (|current_price - s.center_price| / s.center_price > recenter_threshold_pct / 100)

/-- Environment of one `_manage_symbol_grid` call: configuration, the
price/center/quantity oracles (`_get_current_price`,
`_calculate_grid_center`, `_calculate_qty_per_level`) and the broker
operations used by the dispatched actions. -/
structure ManageEnv where
  spacing_pct : ℚ
  num_levels : Nat
  boundary_stop_pct : ℚ
  recenter_threshold_pct : ℚ
  current_price : Option ℚ
  center_calc : Option ℚ
  qty_calc : ℚ
  place : Int → ℚ → ℚ → Option String
  cancel : String → Bool
  positions : Option (List String)
  closeOk : Bool
  upd : UpdBroker
  now : Datetime

/-- Center resolution of `_initialize_new_grid`: the computed center, falling
back to the current price when it is `None` or zero (Python truthiness). -/
def resolve_center (center_calc : Option ℚ) (current_price : ℚ) : ℚ :=
  match center_calc with
  | some c => if c = 0 then current_price else c
  | none => current_price

/-- `GridTradingStrategy._initialize_new_grid`: abort on non-positive
quantity, otherwise initialize the grid and place its buy orders. -/
def initialize_new_grid (env : ManageEnv) (symbol : String) (current_price : ℚ)
    (grid? : Option GridState) : String × Option GridState :=
  let center := resolve_center env.center_calc current_price
  if env.qty_calc ≤ 0 then ("initialize", grid?)
  else
    let g := initialize_grid symbol center env.spacing_pct env.num_levels env.qty_calc env.now
    ("initialize", (place_grid_orders (some g) env.place env.now).grid)

/-- `GridTradingStrategy._manage_symbol_grid`: per-symbol dispatch to
error / initialize / boundary-stop / recenter / routine update.  Returns the
action taken and the resulting grid state for the symbol. -/
def manage_symbol_grid (env : ManageEnv) (symbol : String)
    (grid? : Option GridState) : String × Option GridState :=
  match env.current_price with
  | none => ("error", grid?)
  | some p =>
    if p = 0 then ("error", grid?)
    else
      match get_grid_status grid? with
      | none => initialize_new_grid env symbol p grid?
      | some gs =>
        if gs.status = "stopped" then initialize_new_grid env symbol p grid?
        else if check_boundary_break grid? p env.boundary_stop_pct then
          ("boundary_stop",
           (stop_grid grid? env.cancel env.positions env.closeOk env.now).grid)
        else if check_recenter_needed grid? p env.recenter_threshold_pct then
          match env.center_calc with
          | some nc =>
            if nc = 0 then ("recenter", grid?)
            else ("recenter",
                  (recenter_grid symbol grid? nc env.spacing_pct env.num_levels
                    env.cancel env.place env.now).grid)
          | none => ("recenter", grid?)
        else ("update", (check_and_update_orders grid? env.upd env.now).grid)

/-- Per-symbol fold of `run_grid_cycle`: an `ok` result is recorded under
`results["symbols"]`, a raised exception is caught and recorded under
`results["errors"]`, and iteration always continues. -/
def cycleFold {α : Type} (manage : String → Except String α) :
    List String → List (String × α) × List (String × String)
  | [] => ([], [])
  | s :: ss =>
    let rest := cycleFold manage ss
    match manage s with
    | .ok r => ((s, r) :: rest.1, rest.2)
    | .error e => (rest.1, (s, e) :: rest.2)

/-- The cycle summary returned by `run_grid_cycle`. -/
structure CycleResult (α : Type) where
  disabled : Bool
  symbols : List (String × α)
  errors : List (String × String)
deriving Repr, DecidableEq

/-- `GridTradingStrategy.run_grid_cycle`: returns a disabled marker when the
strategy is off, otherwise processes every configured symbol, isolating
per-symbol exceptions (modelled by `Except.error`) as error entries. -/
def run_grid_cycle {α : Type} (enabled : Bool) (grid_symbols : List String)
    (manage : String → Except String α) : CycleResult α :=
  if enabled then
    let r := cycleFold manage grid_symbols
    ⟨false, r.1, r.2⟩
  else ⟨true, [], []⟩

/-- A fixed timestamp used by the concrete scenarios below. -/
def d0 : Datetime := ⟨"2024-01-01T00:00:00"⟩

/-- Placement oracle of the concrete round-trip scenario: the initial buy
order gets id `B1`. -/
def roundTripPlace : Int → ℚ → ℚ → Option String := fun _ _ _ => some "B1"

/-- Broker view for the first reconciliation cycle of the round-trip
scenario: `B1` has left the open set and filled at 98 for qty 5; any other
order is still `new`. -/
def roundTripBk1 : UpdBroker :=
  { open_orders := .ok []
    get_order := fun oid => if oid = "B1" then some ⟨"filled", 5, 98⟩ else some ⟨"new", 0, 0⟩
    place_sell := fun _ _ _ => some "S0"
    place_buy := fun _ _ _ => some "B2" }

/-- Broker view for the second cycle: the paired sell `S0` filled at 106 for
qty 5. -/
def roundTripBk2 : UpdBroker :=
  { open_orders := .ok []
    get_order := fun oid => if oid = "S0" then some ⟨"filled", 5, 106⟩ else some ⟨"new", 0, 0⟩
    place_sell := fun _ _ _ => some "S9"
    place_buy := fun _ _ _ => some "B2" }

/-- Grid after initialize, place, and the buy-fill reconciliation cycle. -/
def roundTripGrid1 : Option GridState :=
  (check_and_update_orders
    (place_grid_orders (some (initialize_grid "X" 100 2 1 5 d0)) roundTripPlace d0).grid
    roundTripBk1 d0).grid

/-- Grid after the subsequent sell-fill reconciliation cycle. -/
def roundTripGrid2 : Option GridState :=
  (check_and_update_orders roundTripGrid1 roundTripBk2 d0).grid

/-- A grid with mixed-status levels used as concrete serialization input. -/
def wMixedGrid : GridState :=
  { symbol := "BTC/USD"
    center_price := 100
    qty_per_level := 5
    levels := [⟨-1, 98, "buy", some "b1", "filled", 5, some 98⟩,
               ⟨-2, 96, "buy", some "b2", "open", 0, none⟩,
               ⟨1, 102, "sell", none, "cancelled", 0, none⟩]
    total_invested := 490
    realized_profit := 30
    status := "active"
    last_updated := ⟨"2024-01-02T03:04:05"⟩ }

/-- An order id the reconciliation loop leaves alone when it is not in the
broker's open set: its lookup either throws or reports a status that is
neither `filled` nor cancelled/expired. -/
def IdSettled (getOrder : String → Option BrokerOrder) (oid : String) : Prop :=
  getOrder oid = none ∨
  ∃ o, getOrder oid = some o ∧ o.status ≠ "filled" ∧
    o.status ≠ "canceled" ∧ o.status ≠ "cancelled" ∧ o.status ≠ "expired"

/-- A level the reconciliation loop leaves untouched: whenever it is `open`
with a truthy order id that has left the broker's open set, the order lookup
is settled in the sense of `IdSettled`. -/
def NoTrip (openIds : List String) (getOrder : String → Option BrokerOrder)
    (l : GridLevel) : Prop :=
  ∀ oid, l.order_id = some oid → l.status = "open" → oid ≠ "" → oid ∉ openIds →
    IdSettled getOrder oid

/-- The in-place update applied to a level whose order is reported filled:
status `filled` with the broker's fill quantity and average price. -/
def fillLevel (l : GridLevel) (o : BrokerOrder) : GridLevel :=
  { l with
    status := "filled"
    filled_qty := o.filled_qty
    filled_price := some o.filled_avg_price }

/-- The sell level appended when no level exists yet at the paired rung. -/
def openSell (lvl : Int) (price : ℚ) (sid : String) : GridLevel :=
  ⟨lvl, price, "sell", some sid, "open", 0, none⟩

/-- Concrete per-symbol outcome oracle: symbol `B` raises, the others
succeed. -/
def wManage : String → Except String Nat :=
  fun s => if s = "B" then Except.error "boom" else Except.ok 7

/-- Concrete buy-fill scenario: a one-buy grid whose open order `B` has
filled at 98 for quantity 5; fresh orders are reported `new`. -/
def wBuyGrid : GridState :=
  { symbol := "Z"
    center_price := 100
    qty_per_level := 5
    levels := [⟨-1, 98, "buy", some "B", "open", 0, none⟩,
               ⟨1, 102, "sell", none, "pending", 0, none⟩]
    total_invested := 0
    realized_profit := 0
    status := "active"
    last_updated := d0 }

/-- Broker for the concrete buy-fill scenario. -/
def wBuyBk : UpdBroker :=
  { open_orders := Except.ok []
    get_order := fun oid => if oid = "B" then some ⟨"filled", 5, 98⟩ else some ⟨"new", 0, 0⟩
    place_sell := fun _ _ _ => some "S"
    place_buy := fun _ _ _ => none }

/-- Placement oracle for the spacing counterexample: the two initial buys get
ids `A` (level -1) and `B` (level -2). -/
def wSpacedPlace : Int → ℚ → ℚ → Option String :=
  fun lvl _ _ => if lvl = -1 then some "A" else some "B"

/-- A grid initialized with spacing 5 percent and its buy orders placed. -/
def wSpacedGrid : Option GridState :=
  (place_grid_orders (some (initialize_grid "X" 100 5 2 1 d0)) wSpacedPlace d0).grid

/-- Broker for the spacing counterexample: buy `B` (level -2) has filled; the
sell placement returns `SCLAIM` when called with the limit price the claim
predicts (`center * (1 + 5/100 * (-1)) = 95`, from the initialization
spacing) and `SCODE` for any other price. -/
def wSpacedBk : UpdBroker :=
  { open_orders := Except.ok ["A"]
    get_order := fun oid => if oid = "B" then some ⟨"filled", 1, 90⟩ else some ⟨"new", 0, 0⟩
    place_sell := fun _ p _ =>
      if p = 100 * (1 + (5 : ℚ)/100 * (-1)) then some "SCLAIM" else some "SCODE"
    place_buy := fun _ _ _ => none }

/-- Concrete sell-fill scenario: center 100, a filled buy at rung 0 and an
open sell `S1` at rung 1 that fills at 106 for qty 5. -/
def wSellGrid : GridState :=
  { symbol := "Z"
    center_price := 100
    qty_per_level := 5
    levels := [⟨0, 98, "buy", some "OLD", "filled", 5, some 98⟩,
               ⟨1, 102, "sell", some "S1", "open", 0, none⟩]
    total_invested := 490
    realized_profit := 0
    status := "active"
    last_updated := d0 }

/-- Broker for the concrete sell-fill scenario. -/
def wSellBk : UpdBroker :=
  { open_orders := Except.ok []
    get_order := fun oid => if oid = "S1" then some ⟨"filled", 5, 106⟩ else some ⟨"new", 0, 0⟩
    place_sell := fun _ _ _ => none
    place_buy := fun _ _ _ => some "B9" }

/-- Strategy environment for the boundary-stop scenario: boundary 10
percent around a center of 100, current price 120, always-succeeding
cancels, and a unit quantity for re-initialization. -/
def wStopEnv : ManageEnv :=
  { spacing_pct := 2
    num_levels := 1
    boundary_stop_pct := 10
    recenter_threshold_pct := 5
    current_price := some 120
    center_calc := none
    qty_calc := 1
    place := fun _ _ _ => some "N"
    cancel := fun _ => true
    positions := some []
    closeOk := true
    upd := ⟨Except.ok [], fun _ => none, fun _ _ _ => none, fun _ _ _ => none⟩
    now := d0 }

/-! ### Theorems -/

/-- Round trip of a single level through its dictionary form is the
identity. -/
theorem gridLevel_roundtrip (l : GridLevel) : GridLevel.from_dict l.to_dict = l := rfl

/-- C7: serialization round-trips exactly: for every `GridState` (whose
`last_updated` renders to a non-empty ISO string, as every Python datetime
does), `from_dict (to_dict g)` reproduces every field of `g`, including all
nested level fields. -/
theorem grid_state_roundtrip (g : GridState) (now : Datetime)
    (h : g.last_updated.iso ≠ "") : GridState.from_dict g.to_dict now = g := by
  cases g with
  | mk symbol center qty ls ti rp st lu =>
    cases lu with
    | mk iso =>
      have hcomp : GridLevel.from_dict ∘ GridLevel.to_dict = id :=
        funext gridLevel_roundtrip
      simp only [GridState.from_dict, GridState.to_dict, List.map_map, Option.getD_some]
      simp only at h
      simp [h, hcomp]

/-- C7 witness: a grid with `filled`, `open` and `cancelled` levels,
populated `filled_qty`/`filled_price` on the filled one and a `none`
order id on the cancelled one, round-trips exactly. -/
theorem grid_state_roundtrip_witness :
    GridState.from_dict wMixedGrid.to_dict ⟨"other"⟩ = wMixedGrid :=
  grid_state_roundtrip wMixedGrid ⟨"other"⟩ (by decide)

/-- C10: when fetching the broker's open-order set raises, the call returns
all-zero counts, the state object is returned unchanged (`last_updated`
included), and nothing is persisted. -/
theorem check_and_update_open_orders_failure_atomic (grid : GridState)
    (bk : UpdBroker) (now : Datetime) (e : String)
    (hst : grid.status = "active") (hbk : bk.open_orders = Except.error e) :
    check_and_update_orders (some grid) bk now = ⟨some grid, ⟨0, 0, 0⟩, false⟩ := by
  simp [check_and_update_orders, hst, hbk]

/-- C10 witness: the failure-atomicity theorem applied to a concrete active
grid and a broker whose open-order fetch throws. -/
theorem check_and_update_open_orders_failure_atomic_witness :
    check_and_update_orders (some wMixedGrid)
      { open_orders := Except.error "boom"
        get_order := fun _ => none
        place_sell := fun _ _ _ => none
        place_buy := fun _ _ _ => none } d0 =
      ⟨some wMixedGrid, ⟨0, 0, 0⟩, false⟩ :=
  check_and_update_open_orders_failure_atomic wMixedGrid _ d0 "boom" rfl rfl

/-- C5 counterexample: with spacing `0.001` percent the computed buy price
`100 * (1 - 0.001/100)` is `99.999`, but the stored level price is the
rounded `100`, so levels are not priced exactly
`center * (1 - spacing_pct/100 * i)` as claimed. -/
theorem initialize_grid_price_rounding_deviates :
    (initialize_grid "X" 100 (1/1000) 1 1 d0).get_level (-1) =
      some ⟨-1, 100, "buy", none, "pending", 0, none⟩ ∧
    (100 : ℚ) ≠ 100 * (1 - (1/1000) / 100 * 1) := by
  constructor
  · simp [initialize_grid, GridState.get_level, List.range_succ]
    norm_num [round2, roundHalfEven]
  · norm_num

/-- C5 (amended): `initialize_grid` builds exactly `num_levels` buy levels at
indices `-1..-num_levels` priced `round2 (center * (1 - spacing_pct/100*i))`
followed by `num_levels` sell levels at `1..num_levels` priced
`round2 (center * (1 + spacing_pct/100*i))`, all `pending`, on a fresh
`active` grid with zero accounting, and the manager replaces any prior grid
for the symbol while leaving other symbols untouched. -/
theorem initialize_grid_levels_spec (grids : String → Option GridState)
    (symbol : String) (c s : ℚ) (n : Nat) (q : ℚ) (now : Datetime) :
    (initialize_grid_mgr grids symbol c s n q now).1 symbol =
      some (initialize_grid symbol c s n q now) ∧
    (∀ sym, sym ≠ symbol → (initialize_grid_mgr grids symbol c s n q now).1 sym = grids sym) ∧
    (initialize_grid symbol c s n q now).levels.length = 2 * n ∧
    (initialize_grid symbol c s n q now).status = "active" ∧
    (initialize_grid symbol c s n q now).center_price = c ∧
    (initialize_grid symbol c s n q now).qty_per_level = q ∧
    (initialize_grid symbol c s n q now).total_invested = 0 ∧
    (initialize_grid symbol c s n q now).realized_profit = 0 ∧
    (∀ k, k < n → (initialize_grid symbol c s n q now).levels[k]? =
      some ⟨-((k : Int) + 1), round2 (c * (1 - s / 100 * ((k : ℚ) + 1))),
            "buy", none, "pending", 0, none⟩) ∧
    (∀ k, k < n → (initialize_grid symbol c s n q now).levels[n + k]? =
      some ⟨((k : Int) + 1), round2 (c * (1 + s / 100 * ((k : ℚ) + 1))),
            "sell", none, "pending", 0, none⟩) := by
  refine ⟨?_, ?_, ?_, rfl, rfl, rfl, rfl, rfl, ?_, ?_⟩
  · simp [initialize_grid_mgr]
  · intro sym hsym
    simp [initialize_grid_mgr, hsym]
  · simp only [initialize_grid, List.length_append, List.length_map, List.length_range]
    omega
  · intro k hk
    simp only [initialize_grid, List.getElem?_append, List.length_map, List.length_range]
    rw [if_pos hk]
    simp [List.getElem?_range hk]
  · intro k hk
    have h1 : ¬ (n + k < n) := by omega
    have h2 : n + k - n = k := by omega
    simp only [initialize_grid, List.getElem?_append, List.length_map, List.length_range]
    rw [if_neg h1]
    simp [h2, List.getElem?_range hk]

/-- C5 witness: for `center=100, spacing_pct=2, num_levels=3` the first buy
level sits at index `-1` with the specified rounded price, the level list has
six entries, and prior grids of other symbols are preserved. -/
theorem initialize_grid_levels_spec_witness :
    (initialize_grid "G" 100 2 3 5 d0).levels[0]? =
      some ⟨-1, round2 (100 * (1 - 2 / 100 * (0 + 1))), "buy", none, "pending", 0, none⟩ ∧
    (initialize_grid "G" 100 2 3 5 d0).levels.length = 2 * 3 := by
  have h := initialize_grid_levels_spec (fun _ => none) "G" 100 2 3 5 d0
  exact ⟨by simpa using h.2.2.2.2.2.2.2.2.1 0 (by decide), h.2.2.1⟩

/-- Levels without a pending buy are returned unchanged by the placement
loop, with zero orders placed. -/
theorem placeLoop_no_pending (qty : ℚ) (place : Int → ℚ → ℚ → Option String) :
    ∀ ls : List GridLevel,
      (∀ l ∈ ls, ¬(l.status = "pending" ∧ l.order_type = "buy")) →
      placeLoop qty place ls = (ls, 0) := by
  intro ls
  induction ls with
  | nil => intro _; rfl
  | cons l ls ih =>
    intro h
    have hl := h l (List.mem_cons_self l ls)
    have ht := ih fun x hx => h x (List.mem_cons_of_mem l hx)
    simp [placeLoop, hl, ht]

/-- After a placement pass in which every pending buy was submitted
successfully, no level is a pending buy any more. -/
theorem placeLoop_clears (qty : ℚ) (place : Int → ℚ → ℚ → Option String) :
    ∀ ls : List GridLevel,
      (∀ l ∈ ls, l.status = "pending" → l.order_type = "buy" →
        place l.level l.price qty ≠ none) →
      ∀ x ∈ (placeLoop qty place ls).1, ¬(x.status = "pending" ∧ x.order_type = "buy") := by
  intro ls
  induction ls with
  | nil => intro _ x hx; simp [placeLoop] at hx
  | cons l ls ih =>
    intro h x hx
    have ht := ih fun y hy => h y (List.mem_cons_of_mem l hy)
    by_cases hl : l.status = "pending" ∧ l.order_type = "buy"
    · have hp := h l (List.mem_cons_self l ls) hl.1 hl.2
      cases hpl : place l.level l.price qty with
      | none => exact absurd hpl hp
      | some oid =>
        simp only [placeLoop, if_pos hl, hpl] at hx
        rcases List.mem_cons.mp hx with hx1 | hx2
        · subst hx1; rintro ⟨hs, -⟩; simp at hs
        · exact ht x hx2
    · simp only [placeLoop, if_neg hl] at hx
      rcases List.mem_cons.mp hx with hx1 | hx2
      · subst hx1; exact hl
      · exact ht x hx2

/-- C6: once every pending buy level has been placed successfully, a second
`place_grid_orders` call places zero additional orders and changes no
level's status or order id (only the grid's `last_updated` timestamp). -/
theorem place_grid_orders_idempotent (grid : GridState)
    (p1 p2 : Int → ℚ → ℚ → Option String) (t1 t2 : Datetime)
    (hst : grid.status = "active")
    (h : ∀ l ∈ grid.levels, l.status = "pending" → l.order_type = "buy" →
      p1 l.level l.price grid.qty_per_level ≠ none) :
    (place_grid_orders (place_grid_orders (some grid) p1 t1).grid p2 t2).placed = 0 ∧
    (place_grid_orders (place_grid_orders (some grid) p1 t1).grid p2 t2).grid =
      (place_grid_orders (some grid) p1 t1).grid.map fun g => { g with last_updated := t2 } := by
  have h1 : place_grid_orders (some grid) p1 t1 =
      ⟨some { grid with
              levels := (placeLoop grid.qty_per_level p1 grid.levels).1
              last_updated := t1 },
       (placeLoop grid.qty_per_level p1 grid.levels).2, true⟩ := by
    simp [place_grid_orders, hst]
  have hcl : ∀ x ∈ (placeLoop grid.qty_per_level p1 grid.levels).1,
      ¬(x.status = "pending" ∧ x.order_type = "buy") :=
    placeLoop_clears _ p1 grid.levels h
  have h2 : placeLoop grid.qty_per_level p2 (placeLoop grid.qty_per_level p1 grid.levels).1 =
      ((placeLoop grid.qty_per_level p1 grid.levels).1, 0) :=
    placeLoop_no_pending _ p2 _ hcl
  rw [h1]
  constructor <;> simp [place_grid_orders, hst, h2]

/-- C6 witness: after initializing a two-level grid and placing all pending
buys with an always-succeeding broker, a repeated placement call places
nothing. -/
theorem place_grid_orders_idempotent_witness :
    (place_grid_orders
      (place_grid_orders (some (initialize_grid "W" 100 2 2 1 d0))
        (fun _ _ _ => some "X") d0).grid
      (fun _ _ _ => some "Y") d0).placed = 0 :=
  (place_grid_orders_idempotent (initialize_grid "W" 100 2 2 1 d0)
    (fun _ _ _ => some "X") (fun _ _ _ => some "Y") d0 d0 rfl
    (fun _ _ _ _ => by simp)).1

/-- The per-symbol fold processes every symbol: exactly one record per
symbol is produced across the two result lists. -/
theorem cycleFold_length {α : Type} (manage : String → Except String α) :
    ∀ ss : List String,
      (cycleFold manage ss).1.length + (cycleFold manage ss).2.length = ss.length := by
  intro ss
  induction ss with
  | nil => rfl
  | cons s ss ih =>
    cases hm : manage s <;> simp [cycleFold, hm] <;> omega

/-- A symbol whose handler raises is recorded in the error list. -/
theorem cycleFold_mem_error {α : Type} (manage : String → Except String α) :
    ∀ (ss : List String) (s : String) (e : String), s ∈ ss → manage s = .error e →
      (s, e) ∈ (cycleFold manage ss).2 := by
  intro ss
  induction ss with
  | nil => intro s e hs; simp at hs
  | cons t ss ih =>
    intro s e hs hm
    rcases List.mem_cons.mp hs with rfl | hs2
    · simp [cycleFold, hm]
    · cases hmt : manage t <;> simp [cycleFold, hmt] <;>
        first
          | exact ih s e hs2 hm
          | exact Or.inr (by have := ih s e hs2 hm; simpa using this)

/-- A symbol whose handler succeeds is recorded in the symbols list. -/
theorem cycleFold_mem_ok {α : Type} (manage : String → Except String α) :
    ∀ (ss : List String) (s : String) (r : α), s ∈ ss → manage s = .ok r →
      (s, r) ∈ (cycleFold manage ss).1 := by
  intro ss
  induction ss with
  | nil => intro s r hs; simp at hs
  | cons t ss ih =>
    intro s r hs hm
    rcases List.mem_cons.mp hs with rfl | hs2
    · simp [cycleFold, hm]
    · cases hmt : manage t <;> simp [cycleFold, hmt] <;>
        first
          | exact ih s r hs2 hm
          | exact Or.inr (by have := ih s r hs2 hm; simpa using this)

/-- C9: with the strategy enabled, `run_grid_cycle` processes every
configured symbol, records a handler exception as an error entry while later
symbols are still processed, records successes under `symbols`, and (being a
total function of the per-symbol outcomes) never propagates an exception. -/
theorem run_grid_cycle_isolates_errors {α : Type} (syms : List String)
    (manage : String → Except String α) :
    (run_grid_cycle true syms manage).disabled = false ∧
    (run_grid_cycle true syms manage).symbols.length +
      (run_grid_cycle true syms manage).errors.length = syms.length ∧
    (∀ s ∈ syms, ∀ e, manage s = .error e →
      (s, e) ∈ (run_grid_cycle true syms manage).errors) ∧
    (∀ s ∈ syms, ∀ r, manage s = .ok r →
      (s, r) ∈ (run_grid_cycle true syms manage).symbols) := by
  refine ⟨rfl, ?_, ?_, ?_⟩
  · simpa [run_grid_cycle] using cycleFold_length manage syms
  · intro s hs e hm
    simpa [run_grid_cycle] using cycleFold_mem_error manage syms s e hs hm
  · intro s hs r hm
    simpa [run_grid_cycle] using cycleFold_mem_ok manage syms s r hs hm

/-- C9 witness: in a three-symbol cycle where the middle symbol raises, the
failure is recorded as an error entry, both other symbols still produce
results, and the counts add up. -/
theorem run_grid_cycle_isolates_errors_witness :
    ("B", "boom") ∈ (run_grid_cycle true ["A", "B", "C"] wManage).errors ∧
    ("C", 7) ∈ (run_grid_cycle true ["A", "B", "C"] wManage).symbols ∧
    (run_grid_cycle true ["A", "B", "C"] wManage).symbols.length +
      (run_grid_cycle true ["A", "B", "C"] wManage).errors.length = 3 := by
  have h := run_grid_cycle_isolates_errors ["A", "B", "C"] wManage
  refine ⟨h.2.2.1 "B" (by decide) "boom" rfl, h.2.2.2 "C" (by decide) 7 rfl, h.2.1⟩

/-- The element sitting right after a prefix is found at the prefix's
length. -/
theorem getElem?_append_cons {α : Type} (P S : List α) (l : α) :
    (P ++ l :: S)[P.length]? = some l := by
  induction P with
  | nil => simp
  | cons p P ih => simpa using ih

/-- Setting at the position right after a prefix replaces the middle
element. -/
theorem set_append_cons {α : Type} (P S : List α) (l x : α) :
    (P ++ l :: S).set P.length x = P ++ x :: S := by
  induction P with
  | nil => rfl
  | cons p P ih => simp [ih]

/-- Dropping past the middle element leaves the suffix. -/
theorem drop_append_cons {α : Type} (P S : List α) (l : α) :
    (P ++ l :: S).drop (P.length + 1) = S := by
  induction P with
  | nil => simp
  | cons p P ih => simp [ih]

/-- Taking up to the middle element leaves the prefix. -/
theorem take_append_cons {α : Type} (P S : List α) (l : α) :
    (P ++ l :: S).take P.length = P := by
  induction P with
  | nil => rfl
  | cons p P ih => simp [ih]

/-- Every element of `updateFirst p f ls` is an original element or the
image under `f` of an original element. -/
theorem mem_updateFirst {p : GridLevel → Bool} {f : GridLevel → GridLevel}
    {ls : List GridLevel} {x : GridLevel} (hx : x ∈ updateFirst p f ls) :
    x ∈ ls ∨ ∃ y ∈ ls, x = f y := by
  induction ls with
  | nil => simp [updateFirst] at hx
  | cons l ls ih =>
    by_cases hl : p l
    · simp only [updateFirst, if_pos hl] at hx
      rcases List.mem_cons.mp hx with rfl | hmem
      · exact Or.inr ⟨l, List.mem_cons_self l ls, rfl⟩
      · exact Or.inl (List.mem_cons_of_mem l hmem)
    · simp only [updateFirst, if_neg hl] at hx
      rcases List.mem_cons.mp hx with rfl | hmem
      · exact Or.inl (List.mem_cons_self _ _)
      · rcases ih hmem with h1 | ⟨y, hy, hxy⟩
        · exact Or.inl (List.mem_cons_of_mem l h1)
        · exact Or.inr ⟨y, List.mem_cons_of_mem l hy, hxy⟩

/-- When no element matches, `updateFirst` is the identity. -/
theorem updateFirst_of_any_false {p : GridLevel → Bool} {f : GridLevel → GridLevel}
    {ls : List GridLevel} (h : ls.any p = false) : updateFirst p f ls = ls := by
  induction ls with
  | nil => rfl
  | cons l ls ih =>
    simp only [List.any_cons, Bool.or_eq_false_iff] at h
    simp [updateFirst, h.1, ih h.2]

/-- `updateFirst` rewrites exactly the element `find?` locates, provided
`f` preserves the predicate. -/
theorem find?_updateFirst (p : GridLevel → Bool) (f : GridLevel → GridLevel)
    (hp : ∀ y, p y = true → p (f y) = true) :
    ∀ (ls : List GridLevel) (x : GridLevel), ls.find? p = some x →
      (updateFirst p f ls).find? p = some (f x) := by
  intro ls
  induction ls with
  | nil => intro x hx; simp at hx
  | cons l ls ih =>
    intro x hx
    by_cases hl : p l
    · rw [List.find?_cons_of_pos _ hl] at hx
      injection hx with hx
      subst hx
      simp only [updateFirst, if_pos hl]
      exact List.find?_cons_of_pos _ (hp l hl)
    · rw [List.find?_cons_of_neg _ hl] at hx
      simp only [updateFirst, if_neg hl]
      rw [List.find?_cons_of_neg _ hl]
      exact ih x hx

/-- Replacing the middle element by one with the same predicate value does
not change where `find?` looks when neither matches. -/
theorem find?_append_cons_of_ne (p : GridLevel → Bool) (P S : List GridLevel)
    (l lf : GridLevel) (hl : p l = false) (hlf : p lf = false) :
    (P ++ lf :: S).find? p = (P ++ l :: S).find? p := by
  induction P with
  | nil => simp [List.find?, hl, hlf]
  | cons q P ih => cases hq : p q <;> simp [List.find?, hq, ih]

/-- A settled level is skipped by one loop iteration: only the index
advances. -/
theorem updStep_skip (ctx : UpdCtx) (st : UpdSt) (l : GridLevel)
    (hl : st.ls[st.i]? = some l) (h : NoTrip ctx.openIds ctx.get_order l) :
    updStep ctx st = { st with i := st.i + 1 } := by
  simp only [updStep, hl]
  cases hoid : l.order_id with
  | none => rfl
  | some oid =>
    dsimp only
    by_cases hcond : l.status = "open" ∧ oid ≠ ""
    · rw [if_pos hcond]
      by_cases hin : oid ∈ ctx.openIds
      · rw [if_pos hin]
      · rw [if_neg hin]
        rcases h oid hoid hcond.1 hcond.2 hin with hg | ⟨o, ho, h1, h2, h3, h4⟩
        · simp only [hg]
        · simp only [ho]
          rw [if_neg h1]
          rw [if_neg (by rintro (hc | hc | hc) <;> [exact h2 hc; exact h3 hc; exact h4 hc])]
    · rw [if_neg hcond]

/-- When every remaining level is settled, the loop runs to the end of the
list without touching anything. -/
theorem updLoop_skipRun (ctx : UpdCtx) :
    ∀ (fuel : Nat) (st : UpdSt),
      (∀ l ∈ st.ls.drop st.i, NoTrip ctx.openIds ctx.get_order l) →
      st.i ≤ st.ls.length → st.ls.length - st.i ≤ fuel →
      updLoop ctx fuel st = { st with i := st.ls.length } := by
  intro fuel
  induction fuel with
  | zero =>
    intro st h hle hf
    have hi : st.i = st.ls.length := by omega
    rw [updLoop, ← hi]
  | succ fuel ih =>
    intro st h hle hf
    rw [updLoop]
    by_cases hlt : st.i < st.ls.length
    · rw [if_pos hlt]
      have hl : st.ls[st.i]? = some st.ls[st.i] := List.getElem?_eq_getElem hlt
      have hmem : st.ls[st.i] ∈ st.ls.drop st.i := by
        rw [List.drop_eq_getElem_cons hlt]
        exact List.mem_cons_self _ _
      rw [updStep_skip ctx st _ hl (h _ hmem)]
      have hdrop : ∀ x ∈ st.ls.drop (st.i + 1), NoTrip ctx.openIds ctx.get_order x := by
        intro x hx
        apply h
        rw [List.drop_eq_getElem_cons hlt]
        exact List.mem_cons_of_mem _ hx
      exact ih { st with i := st.i + 1 } hdrop (by simp; omega) (by simp; omega)
    · rw [if_neg hlt]
      have hi : st.i = st.ls.length := by omega
      rw [← hi]

/-- A level that is not `open` is never touched by the loop. -/
theorem noTrip_of_not_open {ids : List String} {getOrder : String → Option BrokerOrder}
    {x : GridLevel} (h : x.status ≠ "open") : NoTrip ids getOrder x :=
  fun _ _ hopen _ _ => absurd hopen h

/-- A level whose order id is settled at the broker is never touched by the
loop. -/
theorem noTrip_of_settled_id {ids : List String} {getOrder : String → Option BrokerOrder}
    {x : GridLevel} {sid : String} (hx : x.order_id = some sid)
    (h : IdSettled getOrder sid) : NoTrip ids getOrder x := by
  intro oid hoid _ _ _
  rw [hx] at hoid
  injection hoid with e
  subst e
  exact h

/-- Skipping a settled segment advances the index from `st.i` to `k`,
consuming `k - st.i` fuel and changing nothing else. -/
theorem updLoop_skipSeg (ctx : UpdCtx) :
    ∀ (d fuel : Nat) (st : UpdSt) (k : Nat),
      st.i + d = k → k ≤ st.ls.length →
      (∀ j, st.i ≤ j → j < k → ∀ x, st.ls[j]? = some x →
        NoTrip ctx.openIds ctx.get_order x) →
      d ≤ fuel →
      updLoop ctx fuel st = updLoop ctx (fuel - d) { st with i := k } := by
  intro d
  induction d with
  | zero =>
    intro fuel st k hk _ _ _
    have hik : k = st.i := by omega
    subst hik
    rfl
  | succ d ih =>
    intro fuel st k hk hkle h hf
    have hlt : st.i < st.ls.length := by omega
    cases fuel with
    | zero => omega
    | succ fuel =>
      rw [updLoop, if_pos hlt]
      have hl : st.ls[st.i]? = some st.ls[st.i] := List.getElem?_eq_getElem hlt
      rw [updStep_skip ctx st _ hl (h st.i le_rfl (by omega) _ hl)]
      have hrec := ih fuel { st with i := st.i + 1 } k (by simp; omega) hkle
        (fun j hj1 hj2 x hx => h j (by simp at hj1; omega) hj2 x hx) (by omega)
      rw [hrec]
      have harith : fuel + 1 - (d + 1) = fuel - d := by omega
      rw [harith]

/-- One loop iteration on an open buy level whose order has left the open
set and is reported `filled`, with a successful sell placement keyed by the
hardcoded `2.0` percent spacing: the level is marked filled, the buy's
proceeds are added to `total_invested`, and the rung one above is re-opened
(if a level exists there) or a fresh open sell level is appended. -/
theorem updStep_buy_fill (ctx : UpdCtx) (st : UpdSt) (l : GridLevel)
    (oid sid : String) (o : BrokerOrder)
    (hl : st.ls[st.i]? = some l)
    (hopen : l.status = "open") (hid : l.order_id = some oid) (hne : oid ≠ "")
    (hnotin : oid ∉ ctx.openIds)
    (hget : ctx.get_order oid = some o) (hfill : o.status = "filled")
    (hbuy : l.order_type = "buy")
    (hplace : ctx.place_sell l.level
        (round2 (ctx.center_price * (1 + 2/100 * ((l.level + 1 : Int) : ℚ)))) o.filled_qty =
      some sid) :
    updStep ctx st =
      { st with
        ls := if (st.ls.set st.i (fillLevel l o)).any (fun x => x.level == l.level + 1) then
            updateFirst (fun x => x.level == l.level + 1)
              (fun x => { x with order_id := some sid, status := "open" })
              (st.ls.set st.i (fillLevel l o))
          else st.ls.set st.i (fillLevel l o) ++
            [openSell (l.level + 1)
              (round2 (ctx.center_price * (1 + 2/100 * ((l.level + 1 : Int) : ℚ)))) sid]
        i := st.i + 1
        total_invested := st.total_invested + o.filled_avg_price * o.filled_qty
        buys_filled := st.buys_filled + 1
        orders_placed := st.orders_placed + 1 } := by
  simp only [updStep, hl, hid]
  rw [if_pos ⟨hopen, hne⟩, if_neg hnotin]
  simp only [hget]
  rw [if_pos hfill, if_pos hbuy]
  simp only [hplace]
  simp [fillLevel, openSell, hid]

/-- One loop iteration on an open sell level whose order has left the open
set and is reported `filled`, with a successful rebuy placement: profit
versus the center is booked, the sell's proceeds are subtracted from
`total_invested`, and the first level at the rung one below (when present)
is reset to `open` with the fresh order id and cleared fill fields. -/
theorem updStep_sell_fill (ctx : UpdCtx) (st : UpdSt) (l : GridLevel)
    (oid bid : String) (o : BrokerOrder)
    (hl : st.ls[st.i]? = some l)
    (hopen : l.status = "open") (hid : l.order_id = some oid) (hne : oid ≠ "")
    (hnotin : oid ∉ ctx.openIds)
    (hget : ctx.get_order oid = some o) (hfill : o.status = "filled")
    (hsell : l.order_type = "sell")
    (hplace : ctx.place_buy (l.level - 1)
        (round2 (ctx.center_price * (1 - 2/100 * (((l.level - 1 : Int)).natAbs : ℚ))))
        ctx.qty_per_level =
      some bid) :
    updStep ctx st =
      { st with
        ls := updateFirst (fun x => x.level == l.level - 1)
            (fun x => { x with
                        order_id := some bid
                        status := "open"
                        filled_qty := 0
                        filled_price := none })
            (st.ls.set st.i (fillLevel l o))
        i := st.i + 1
        total_invested := st.total_invested - o.filled_avg_price * o.filled_qty
        realized_profit := st.realized_profit + (o.filled_avg_price - ctx.center_price) * o.filled_qty
        sells_filled := st.sells_filled + 1
        orders_placed := st.orders_placed + 1 } := by
  have hnotbuy : ¬ l.order_type = "buy" := by rw [hsell]; decide
  simp only [updStep, hl, hid]
  rw [if_pos ⟨hopen, hne⟩, if_neg hnotin]
  simp only [hget]
  rw [if_pos hfill, if_neg hnotbuy, if_pos hsell]
  simp only [hplace]
  simp [fillLevel, hid]

/-- A successful index lookup yields a member of the list. -/
theorem mem_of_getElem?_eq {α : Type} {l : List α} {n : Nat} {a : α}
    (h : l[n]? = some a) : a ∈ l := by
  obtain ⟨hn, rfl⟩ := List.getElem?_eq_some.mp h
  exact List.getElem_mem hn

/-- `updateFirst` preserves the list length. -/
theorem updateFirst_length (p : GridLevel → Bool) (f : GridLevel → GridLevel) :
    ∀ ls : List GridLevel, (updateFirst p f ls).length = ls.length := by
  intro ls
  induction ls with
  | nil => rfl
  | cons l ls ih =>
    by_cases hl : p l <;> simp [updateFirst, hl, ih]

/-- C8: when every open level's order id is still in the broker's open set,
`check_and_update_orders` reports zero fills and zero placements and leaves
every level untouched (only the grid's `last_updated` advances). -/
theorem check_and_update_idempotent_recovery (grid : GridState) (bk : UpdBroker)
    (now : Datetime) (ids : List String)
    (hst : grid.status = "active") (hbk : bk.open_orders = Except.ok ids)
    (h : ∀ l ∈ grid.levels, l.status = "open" → ∀ oid, l.order_id = some oid → oid ∈ ids) :
    check_and_update_orders (some grid) bk now =
      ⟨some { grid with last_updated := now }, ⟨0, 0, 0⟩, true⟩ := by
  have hall : ∀ l ∈ grid.levels, NoTrip ids bk.get_order l := by
    intro l hl oid hoid hopen _ hnotin
    exact absurd (h l hl hopen oid hoid) hnotin
  have hloop := updLoop_skipRun
    ⟨grid.center_price, grid.qty_per_level, ids, bk.get_order, bk.place_sell, bk.place_buy⟩
    (2 * grid.levels.length + 1)
    ⟨grid.levels, 0, grid.total_invested, grid.realized_profit, 0, 0, 0⟩
    (by simpa using hall) (Nat.zero_le _) (by simp; omega)
  simp [check_and_update_orders, hst, hbk, hloop]

/-- C8 witness: a fully recovered two-level grid (one open buy with its id in
the broker's open set, one pending sell) reconciles to zero fills, zero
placements, and unchanged levels. -/
theorem check_and_update_idempotent_recovery_witness :
    check_and_update_orders
      (some { symbol := "Y"
              center_price := 100
              qty_per_level := 5
              levels := [⟨-1, 98, "buy", some "A", "open", 0, none⟩,
                         ⟨1, 102, "sell", none, "pending", 0, none⟩]
              total_invested := 0
              realized_profit := 0
              status := "active"
              last_updated := d0 })
      { open_orders := Except.ok ["A"]
        get_order := fun _ => none
        place_sell := fun _ _ _ => none
        place_buy := fun _ _ _ => none }
      ⟨"2024-01-01T00:05:00"⟩ =
      ⟨some { symbol := "Y"
              center_price := 100
              qty_per_level := 5
              levels := [⟨-1, 98, "buy", some "A", "open", 0, none⟩,
                         ⟨1, 102, "sell", none, "pending", 0, none⟩]
              total_invested := 0
              realized_profit := 0
              status := "active"
              last_updated := ⟨"2024-01-01T00:05:00"⟩ },
       ⟨0, 0, 0⟩, true⟩ := by
  apply check_and_update_idempotent_recovery _ _ _ ["A"] rfl rfl
  intro l hl hopen oid hoid
  simp only [List.mem_cons, List.not_mem_nil, or_false] at hl
  rcases hl with rfl | rfl
  · injection hoid with e
    subst e
    decide
  · exact absurd hopen (by decide)

/-- Full reconciliation run in which exactly one open buy level trips: every
other level is settled, the buy at `l` has filled, and the sell placed one
rung up (at the hardcoded 2.0 percent spacing price) succeeds with id `sid`
whose own lookup is settled.  The cycle books the buy's proceeds, re-opens
the existing level at the rung above or appends a fresh open sell there, and
reports one buy fill and one order placed. -/
theorem buyFillRun (grid : GridState) (bk : UpdBroker) (now : Datetime)
    (P S : List GridLevel) (l : GridLevel) (oid sid : String) (o : BrokerOrder)
    (ids : List String)
    (hlv : grid.levels = P ++ l :: S)
    (hst : grid.status = "active")
    (hbk : bk.open_orders = Except.ok ids)
    (hopen : l.status = "open") (hid : l.order_id = some oid) (hne : oid ≠ "")
    (hnotin : oid ∉ ids)
    (hget : bk.get_order oid = some o) (hfill : o.status = "filled")
    (hbuy : l.order_type = "buy")
    (hplace : bk.place_sell l.level
        (round2 (grid.center_price * (1 + 2/100 * ((l.level + 1 : Int) : ℚ)))) o.filled_qty =
      some sid)
    (hP : ∀ x ∈ P, NoTrip ids bk.get_order x)
    (hS : ∀ x ∈ S, NoTrip ids bk.get_order x)
    (hsid : IdSettled bk.get_order sid) :
    check_and_update_orders (some grid) bk now =
      ⟨some { grid with
              levels := if (P ++ fillLevel l o :: S).any (fun x => x.level == l.level + 1) then
                  updateFirst (fun x => x.level == l.level + 1)
                    (fun x => { x with order_id := some sid, status := "open" })
                    (P ++ fillLevel l o :: S)
                else (P ++ fillLevel l o :: S) ++
                  [openSell (l.level + 1)
                    (round2 (grid.center_price * (1 + 2/100 * ((l.level + 1 : Int) : ℚ)))) sid]
              total_invested := grid.total_invested + o.filled_avg_price * o.filled_qty
              last_updated := now },
       ⟨1, 0, 1⟩, true⟩ := by
  have hlen : grid.levels.length = P.length + S.length + 1 := by
    rw [hlv]; simp; omega
  have hPlt : P.length < grid.levels.length := by omega
  have hk : grid.levels[P.length]? = some l := by
    rw [hlv]; exact getElem?_append_cons P S l
  have hset : grid.levels.set P.length (fillLevel l o) = P ++ fillLevel l o :: S := by
    rw [hlv]; exact set_append_cons P S l _
  have hbase : ∀ x ∈ P ++ fillLevel l o :: S, NoTrip ids bk.get_order x := by
    intro x hx
    rcases List.mem_append.mp hx with hxP | hxm
    · exact hP x hxP
    · rcases List.mem_cons.mp hxm with rfl | hxS
      · exact noTrip_of_not_open (by simp [fillLevel])
      · exact hS x hxS
  have hbaselen : (P ++ fillLevel l o :: S).length = grid.levels.length := by
    rw [hlv]; simp
  have hLS2mem : ∀ x ∈ (if (P ++ fillLevel l o :: S).any (fun y => y.level == l.level + 1) then
      updateFirst (fun y => y.level == l.level + 1)
        (fun y => { y with order_id := some sid, status := "open" })
        (P ++ fillLevel l o :: S)
    else (P ++ fillLevel l o :: S) ++
      [openSell (l.level + 1)
        (round2 (grid.center_price * (1 + 2/100 * ((l.level + 1 : Int) : ℚ)))) sid]),
      NoTrip ids bk.get_order x := by
    intro x hx
    by_cases hany : (P ++ fillLevel l o :: S).any (fun y => y.level == l.level + 1)
    · rw [if_pos hany] at hx
      rcases mem_updateFirst hx with hxb | ⟨y, _, rfl⟩
      · exact hbase x hxb
      · exact noTrip_of_settled_id rfl hsid
    · rw [if_neg hany] at hx
      rcases List.mem_append.mp hx with hxb | hxn
      · exact hbase x hxb
      · rcases List.mem_cons.mp hxn with rfl | hc
        · exact noTrip_of_settled_id rfl hsid
        · cases hc
  have hLS2len : (if (P ++ fillLevel l o :: S).any (fun y => y.level == l.level + 1) then
      updateFirst (fun y => y.level == l.level + 1)
        (fun y => { y with order_id := some sid, status := "open" })
        (P ++ fillLevel l o :: S)
    else (P ++ fillLevel l o :: S) ++
      [openSell (l.level + 1)
        (round2 (grid.center_price * (1 + 2/100 * ((l.level + 1 : Int) : ℚ)))) sid]).length =
      grid.levels.length ∨
    (if (P ++ fillLevel l o :: S).any (fun y => y.level == l.level + 1) then
      updateFirst (fun y => y.level == l.level + 1)
        (fun y => { y with order_id := some sid, status := "open" })
        (P ++ fillLevel l o :: S)
    else (P ++ fillLevel l o :: S) ++
      [openSell (l.level + 1)
        (round2 (grid.center_price * (1 + 2/100 * ((l.level + 1 : Int) : ℚ)))) sid]).length =
      grid.levels.length + 1 := by
    by_cases hany : (P ++ fillLevel l o :: S).any (fun y => y.level == l.level + 1)
    · left; rw [if_pos hany, updateFirst_length, hbaselen]
    · right
      rw [if_neg hany, List.length_append, hbaselen]
      rfl
  have hidx : ∀ j, (0 : Nat) ≤ j → j < P.length → ∀ x, grid.levels[j]? = some x →
      NoTrip ids bk.get_order x := by
    intro j _ hj x hx
    rw [hlv, List.getElem?_append] at hx
    rw [if_pos hj] at hx
    exact hP x (mem_of_getElem?_eq hx)
  have hloop : ∀ LS2 : List GridLevel,
      (if (P ++ fillLevel l o :: S).any (fun y => y.level == l.level + 1) then
          updateFirst (fun y => y.level == l.level + 1)
            (fun y => { y with order_id := some sid, status := "open" })
            (P ++ fillLevel l o :: S)
        else (P ++ fillLevel l o :: S) ++
          [openSell (l.level + 1)
            (round2 (grid.center_price * (1 + 2/100 * ((l.level + 1 : Int) : ℚ)))) sid]) = LS2 →
      (LS2.length = grid.levels.length ∨ LS2.length = grid.levels.length + 1) →
      (∀ x ∈ LS2, NoTrip ids bk.get_order x) →
      updLoop
        ⟨grid.center_price, grid.qty_per_level, ids, bk.get_order, bk.place_sell, bk.place_buy⟩
        (2 * grid.levels.length + 1)
        ⟨grid.levels, 0, grid.total_invested, grid.realized_profit, 0, 0, 0⟩ =
      ⟨LS2, LS2.length, grid.total_invested + o.filled_avg_price * o.filled_qty,
       grid.realized_profit, 1, 0, 1⟩ := by
    intro LS2 hLS2 hlen2 hmem2
    rw [updLoop_skipSeg
      ⟨grid.center_price, grid.qty_per_level, ids, bk.get_order, bk.place_sell, bk.place_buy⟩
      P.length (2 * grid.levels.length + 1)
      ⟨grid.levels, 0, grid.total_invested, grid.realized_profit, 0, 0, 0⟩ P.length
      (by show (0 : Nat) + P.length = P.length; omega)
      (by show P.length ≤ grid.levels.length; omega)
      hidx
      (by show P.length ≤ 2 * grid.levels.length + 1; omega)]
    have hf1 : 2 * grid.levels.length + 1 - P.length =
        (2 * grid.levels.length - P.length) + 1 := by omega
    rw [hf1, updLoop, if_pos hPlt]
    rw [updStep_buy_fill
      ⟨grid.center_price, grid.qty_per_level, ids, bk.get_order, bk.place_sell, bk.place_buy⟩
      _ l oid sid o hk hopen hid hne hnotin hget hfill hbuy hplace]
    dsimp only
    rw [hset, hLS2]
    rw [updLoop_skipRun
      ⟨grid.center_price, grid.qty_per_level, ids, bk.get_order, bk.place_sell, bk.place_buy⟩
      (2 * grid.levels.length - P.length) _
      (fun x hx => hmem2 x (List.drop_subset _ _ hx))
      (by
        show P.length + 1 ≤ LS2.length
        rcases hlen2 with he | he <;> omega)
      (by
        show LS2.length - (P.length + 1) ≤ 2 * grid.levels.length - P.length
        rcases hlen2 with he | he <;> omega)]
  simp [check_and_update_orders, hst, hbk, hloop _ rfl hLS2len hLS2mem]

/-- Full reconciliation run in which exactly one open sell level trips:
every other level is settled, the sell at `l` has filled, and the rebuy
placed one rung down for `qty_per_level` succeeds with id `bid` whose own
lookup is settled.  The cycle books `(fill - center) * qty` of profit,
subtracts the sell's proceeds from `total_invested`, resets the first level
at the rung below to `open` with the fresh id and cleared fills, and reports
one sell fill and one order placed. -/
theorem sellFillRun (grid : GridState) (bk : UpdBroker) (now : Datetime)
    (P S : List GridLevel) (l : GridLevel) (oid bid : String) (o : BrokerOrder)
    (ids : List String)
    (hlv : grid.levels = P ++ l :: S)
    (hst : grid.status = "active")
    (hbk : bk.open_orders = Except.ok ids)
    (hopen : l.status = "open") (hid : l.order_id = some oid) (hne : oid ≠ "")
    (hnotin : oid ∉ ids)
    (hget : bk.get_order oid = some o) (hfill : o.status = "filled")
    (hsell : l.order_type = "sell")
    (hplace : bk.place_buy (l.level - 1)
        (round2 (grid.center_price * (1 - 2/100 * (((l.level - 1 : Int)).natAbs : ℚ))))
        grid.qty_per_level =
      some bid)
    (hP : ∀ x ∈ P, NoTrip ids bk.get_order x)
    (hS : ∀ x ∈ S, NoTrip ids bk.get_order x)
    (hbid : IdSettled bk.get_order bid) :
    check_and_update_orders (some grid) bk now =
      ⟨some { grid with
              levels := updateFirst (fun x => x.level == l.level - 1)
                  (fun x => { x with
                              order_id := some bid
                              status := "open"
                              filled_qty := 0
                              filled_price := none })
                  (P ++ fillLevel l o :: S)
              total_invested := grid.total_invested - o.filled_avg_price * o.filled_qty
              realized_profit := grid.realized_profit +
                (o.filled_avg_price - grid.center_price) * o.filled_qty
              last_updated := now },
       ⟨0, 1, 1⟩, true⟩ := by
  have hlen : grid.levels.length = P.length + S.length + 1 := by
    rw [hlv]; simp; omega
  have hPlt : P.length < grid.levels.length := by omega
  have hk : grid.levels[P.length]? = some l := by
    rw [hlv]; exact getElem?_append_cons P S l
  have hset : grid.levels.set P.length (fillLevel l o) = P ++ fillLevel l o :: S := by
    rw [hlv]; exact set_append_cons P S l _
  have hbase : ∀ x ∈ P ++ fillLevel l o :: S, NoTrip ids bk.get_order x := by
    intro x hx
    rcases List.mem_append.mp hx with hxP | hxm
    · exact hP x hxP
    · rcases List.mem_cons.mp hxm with rfl | hxS
      · exact noTrip_of_not_open (by simp [fillLevel])
      · exact hS x hxS
  have hbaselen : (P ++ fillLevel l o :: S).length = grid.levels.length := by
    rw [hlv]; simp
  have hidx : ∀ j, (0 : Nat) ≤ j → j < P.length → ∀ x, grid.levels[j]? = some x →
      NoTrip ids bk.get_order x := by
    intro j _ hj x hx
    rw [hlv, List.getElem?_append] at hx
    rw [if_pos hj] at hx
    exact hP x (mem_of_getElem?_eq hx)
  have hloop : ∀ LS2 : List GridLevel,
      updateFirst (fun x => x.level == l.level - 1)
          (fun x => { x with
                      order_id := some bid
                      status := "open"
                      filled_qty := 0
                      filled_price := none })
          (P ++ fillLevel l o :: S) = LS2 →
      LS2.length = grid.levels.length →
      (∀ x ∈ LS2, NoTrip ids bk.get_order x) →
      updLoop
        ⟨grid.center_price, grid.qty_per_level, ids, bk.get_order, bk.place_sell, bk.place_buy⟩
        (2 * grid.levels.length + 1)
        ⟨grid.levels, 0, grid.total_invested, grid.realized_profit, 0, 0, 0⟩ =
      ⟨LS2, LS2.length, grid.total_invested - o.filled_avg_price * o.filled_qty,
       grid.realized_profit + (o.filled_avg_price - grid.center_price) * o.filled_qty,
       0, 1, 1⟩ := by
    intro LS2 hLS2 hlen2 hmem2
    rw [updLoop_skipSeg
      ⟨grid.center_price, grid.qty_per_level, ids, bk.get_order, bk.place_sell, bk.place_buy⟩
      P.length (2 * grid.levels.length + 1)
      ⟨grid.levels, 0, grid.total_invested, grid.realized_profit, 0, 0, 0⟩ P.length
      (by show (0 : Nat) + P.length = P.length; omega)
      (by show P.length ≤ grid.levels.length; omega)
      hidx
      (by show P.length ≤ 2 * grid.levels.length + 1; omega)]
    have hf1 : 2 * grid.levels.length + 1 - P.length =
        (2 * grid.levels.length - P.length) + 1 := by omega
    rw [hf1, updLoop, if_pos hPlt]
    rw [updStep_sell_fill
      ⟨grid.center_price, grid.qty_per_level, ids, bk.get_order, bk.place_sell, bk.place_buy⟩
      _ l oid bid o hk hopen hid hne hnotin hget hfill hsell hplace]
    dsimp only
    rw [hset, hLS2]
    rw [updLoop_skipRun
      ⟨grid.center_price, grid.qty_per_level, ids, bk.get_order, bk.place_sell, bk.place_buy⟩
      (2 * grid.levels.length - P.length) _
      (fun x hx => hmem2 x (List.drop_subset _ _ hx))
      (by
        show P.length + 1 ≤ LS2.length
        omega)
      (by
        show LS2.length - (P.length + 1) ≤ 2 * grid.levels.length - P.length
        omega)]
  have hLS2len : (updateFirst (fun x => x.level == l.level - 1)
      (fun x => { x with
                  order_id := some bid
                  status := "open"
                  filled_qty := 0
                  filled_price := none })
      (P ++ fillLevel l o :: S)).length = grid.levels.length := by
    rw [updateFirst_length, hbaselen]
  have hLS2mem : ∀ x ∈ updateFirst (fun y => y.level == l.level - 1)
      (fun y => { y with
                  order_id := some bid
                  status := "open"
                  filled_qty := 0
                  filled_price := none })
      (P ++ fillLevel l o :: S),
      NoTrip ids bk.get_order x := by
    intro x hx
    rcases mem_updateFirst hx with hxb | ⟨y, _, rfl⟩
    · exact hbase x hxb
    · exact noTrip_of_settled_id rfl hbid
  simp [check_and_update_orders, hst, hbk, hloop _ rfl hLS2len hLS2mem]

/-- A level whose order id is still in the broker's open set is never
touched by the loop. -/
theorem noTrip_of_id_mem {ids : List String} {getOrder : String → Option BrokerOrder}
    {x : GridLevel} {a : String} (hx : x.order_id = some a) (ha : a ∈ ids) :
    NoTrip ids getOrder x := by
  intro oid hoid _ _ hnotin
  rw [hx] at hoid
  injection hoid with e
  subst e
  exact absurd ha hnotin

/-- C1 (amended): when `check_and_update_orders` detects that an open buy
order at rung `L` has filled, it places a sell limit order for the filled
quantity at rung `L+1` priced `round2 (center * (1 + 2.0/100 * (L+1)))` —
the hardcoded `2.0` percent spacing of the source, not the spacing the grid
was initialized with — and either re-opens the first existing `GridLevel` at
rung `L+1` with the new order id, or appends a new open sell `GridLevel`
there.  The new order id is pinned to the `place_sell` call made at exactly
that price and quantity. -/
theorem check_and_update_buy_fill_places_sell (grid : GridState) (bk : UpdBroker)
    (now : Datetime) (P S : List GridLevel) (l : GridLevel) (oid sid : String)
    (o : BrokerOrder) (ids : List String)
    (hlv : grid.levels = P ++ l :: S)
    (hst : grid.status = "active")
    (hbk : bk.open_orders = Except.ok ids)
    (hopen : l.status = "open") (hid : l.order_id = some oid) (hne : oid ≠ "")
    (hnotin : oid ∉ ids)
    (hget : bk.get_order oid = some o) (hfill : o.status = "filled")
    (hbuy : l.order_type = "buy")
    (hplace : bk.place_sell l.level
        (round2 (grid.center_price * (1 + 2/100 * ((l.level + 1 : Int) : ℚ)))) o.filled_qty =
      some sid)
    (hP : ∀ x ∈ P, NoTrip ids bk.get_order x)
    (hS : ∀ x ∈ S, NoTrip ids bk.get_order x)
    (hsid : IdSettled bk.get_order sid) :
    ∃ g2, (check_and_update_orders (some grid) bk now).grid = some g2 ∧
      (check_and_update_orders (some grid) bk now).results = ⟨1, 0, 1⟩ ∧
      ((∀ x ∈ grid.levels, x.level ≠ l.level + 1) →
        g2.levels = (P ++ fillLevel l o :: S) ++
          [openSell (l.level + 1)
            (round2 (grid.center_price * (1 + 2/100 * ((l.level + 1 : Int) : ℚ)))) sid]) ∧
      (∀ x, grid.levels.find? (fun y => y.level == l.level + 1) = some x →
        g2.get_level (l.level + 1) = some { x with order_id := some sid, status := "open" }) := by
  have hrun := buyFillRun grid bk now P S l oid sid o ids hlv hst hbk hopen hid hne
    hnotin hget hfill hbuy hplace hP hS hsid
  have hll : l.level ≠ l.level + 1 := by omega
  have hfl : (fillLevel l o).level = l.level := rfl
  rw [hrun]
  refine ⟨_, rfl, rfl, ?_, ?_⟩
  · intro hnone
    have hany : (P ++ fillLevel l o :: S).any (fun y => y.level == l.level + 1) = false := by
      rw [List.any_eq_false]
      intro x hx
      rcases List.mem_append.mp hx with hxP | hxm
      · have : x ∈ grid.levels := by
          rw [hlv]; exact List.mem_append_left _ hxP
        simpa using hnone x this
      · rcases List.mem_cons.mp hxm with rfl | hxS
        · simpa [hfl] using hll
        · have : x ∈ grid.levels := by
            rw [hlv]
            exact List.mem_append_right _ (List.mem_cons_of_mem _ hxS)
          simp [hnone x this]
    simp [hany]
  · intro x hx
    have hpl : (fun y : GridLevel => y.level == l.level + 1) l = false := by
      simp [hll]
    have hplf : (fun y : GridLevel => y.level == l.level + 1) (fillLevel l o) = false := by
      simp [fillLevel, hll]
    have hfind : (P ++ fillLevel l o :: S).find? (fun y => y.level == l.level + 1) = some x := by
      rw [find?_append_cons_of_ne _ P S l (fillLevel l o) hpl hplf]
      rw [← hlv]
      exact hx
    have hany : (P ++ fillLevel l o :: S).any (fun y => y.level == l.level + 1) = true := by
      have hmem := List.mem_of_find?_eq_some hfind
      have hpx := List.find?_some hfind
      exact List.any_eq_true.mpr ⟨x, hmem, hpx⟩
    unfold GridState.get_level
    have hone : ({ grid with
        levels := if (P ++ fillLevel l o :: S).any (fun y => y.level == l.level + 1) then
            updateFirst (fun y => y.level == l.level + 1)
              (fun y => { y with order_id := some sid, status := "open" })
              (P ++ fillLevel l o :: S)
          else (P ++ fillLevel l o :: S) ++
            [openSell (l.level + 1)
              (round2 (grid.center_price * (1 + 2/100 * ((l.level + 1 : Int) : ℚ)))) sid]
        total_invested := grid.total_invested + o.filled_avg_price * o.filled_qty
        last_updated := now } : GridState).levels =
        updateFirst (fun y => y.level == l.level + 1)
          (fun y => { y with order_id := some sid, status := "open" })
          (P ++ fillLevel l o :: S) := by
      simp [hany]
    rw [hone]
    exact find?_updateFirst _ _ (fun y hy => by simpa using hy) _ x hfind

/-- C1 witness: in a concrete one-buy grid (center 100) whose open buy `B` at
rung `-1` fills at 98 for qty 5, the cycle reports one buy fill and one
placement and appends an open sell at rung `0` with the new order id `S`. -/
theorem check_and_update_buy_fill_places_sell_witness :
    ∃ g2, (check_and_update_orders (some wBuyGrid) wBuyBk d0).grid = some g2 ∧
      (check_and_update_orders (some wBuyGrid) wBuyBk d0).results = ⟨1, 0, 1⟩ ∧
      g2.levels = ([] ++ fillLevel ⟨-1, 98, "buy", some "B", "open", 0, none⟩ ⟨"filled", 5, 98⟩ ::
          [⟨1, 102, "sell", none, "pending", 0, none⟩]) ++
        [openSell ((-1 : Int) + 1)
          (round2 (wBuyGrid.center_price * (1 + 2/100 * (((-1 : Int) + 1 : Int) : ℚ)))) "S"] := by
  obtain ⟨g2, h1, h2, h3, h4⟩ := check_and_update_buy_fill_places_sell wBuyGrid wBuyBk d0
    [] [⟨1, 102, "sell", none, "pending", 0, none⟩]
    ⟨-1, 98, "buy", some "B", "open", 0, none⟩
    "B" "S" ⟨"filled", 5, 98⟩ []
    rfl rfl rfl rfl rfl (by decide) (by decide) rfl rfl rfl rfl
    (by intro x hx; cases hx)
    (by
      intro x hx
      simp only [List.mem_cons, List.not_mem_nil, or_false] at hx
      subst hx
      exact noTrip_of_not_open (by decide))
    (Or.inr ⟨⟨"new", 0, 0⟩, rfl, by decide, by decide, by decide, by decide⟩)
  exact ⟨g2, h1, h2, h3 (by decide)⟩

/-- C1 counterexample: a grid initialized with spacing 5 percent, buys placed
with ids `A` (rung -1) and `B` (rung -2), after which `B` fills.  The
claim's sell price at rung `-1` would be `100 * (1 + 5/100 * (-1)) = 95`;
the broker oracle answers `SCLAIM` if and only if it is called with that
limit price, and `SCODE` otherwise.  The resulting level at rung `-1`
carries order id `SCODE`: the sell was placed with the hardcoded 2.0 percent
spacing price (98), not the initialization spacing price. -/
theorem buy_fill_sell_price_uses_hardcoded_spacing :
    ∃ g2, (check_and_update_orders wSpacedGrid wSpacedBk d0).grid = some g2 ∧
      g2.get_level (-1) = some ⟨-1, 95, "buy", some "SCODE", "open", 0, none⟩ ∧
      (some "SCODE" : Option String) ≠ some "SCLAIM" := by
  have hgrid : wSpacedGrid = some
      { symbol := "X"
        center_price := 100
        qty_per_level := 1
        levels := [⟨-1, 95, "buy", some "A", "open", 0, none⟩,
                   ⟨-2, 90, "buy", some "B", "open", 0, none⟩,
                   ⟨1, 105, "sell", none, "pending", 0, none⟩,
                   ⟨2, 110, "sell", none, "pending", 0, none⟩]
        total_invested := 0
        realized_profit := 0
        status := "active"
        last_updated := d0 } := by
    have hsb : ("sell" : String) ≠ "buy" := by decide
    norm_num [wSpacedGrid, place_grid_orders, placeLoop, initialize_grid, List.range_succ,
      wSpacedPlace, round2, roundHalfEven, hsb]
  have hplace : wSpacedBk.place_sell (-2 : Int)
      (round2 ((100 : ℚ) * (1 + 2/100 * (((-2 : Int) + 1 : Int) : ℚ)))) 1 = some "SCODE" := by
    show (if round2 ((100 : ℚ) * (1 + 2/100 * (((-2 : Int) + 1 : Int) : ℚ))) =
        100 * (1 + (5 : ℚ)/100 * (-1)) then some "SCLAIM" else some "SCODE") = some "SCODE"
    norm_num [round2, roundHalfEven]
  rw [hgrid]
  obtain ⟨g2, h1, h2, h3, h4⟩ := check_and_update_buy_fill_places_sell
    { symbol := "X"
      center_price := 100
      qty_per_level := 1
      levels := [⟨-1, 95, "buy", some "A", "open", 0, none⟩,
                 ⟨-2, 90, "buy", some "B", "open", 0, none⟩,
                 ⟨1, 105, "sell", none, "pending", 0, none⟩,
                 ⟨2, 110, "sell", none, "pending", 0, none⟩]
      total_invested := 0
      realized_profit := 0
      status := "active"
      last_updated := d0 } wSpacedBk d0
    [⟨-1, 95, "buy", some "A", "open", 0, none⟩]
    [⟨1, 105, "sell", none, "pending", 0, none⟩, ⟨2, 110, "sell", none, "pending", 0, none⟩]
    ⟨-2, 90, "buy", some "B", "open", 0, none⟩
    "B" "SCODE" ⟨"filled", 1, 90⟩ ["A"]
    rfl rfl rfl rfl rfl (by decide) (by decide) rfl rfl rfl hplace
    (by
      intro x hx
      simp only [List.mem_cons, List.not_mem_nil, or_false] at hx
      subst hx
      exact noTrip_of_id_mem rfl (by decide))
    (by
      intro x hx
      simp only [List.mem_cons, List.not_mem_nil, or_false] at hx
      rcases hx with rfl | rfl <;> exact noTrip_of_not_open (by decide))
    (Or.inr ⟨⟨"new", 0, 0⟩, rfl, by decide, by decide, by decide, by decide⟩)
  refine ⟨g2, h1, ?_, by decide⟩
  have := h4 ⟨-1, 95, "buy", some "A", "open", 0, none⟩ rfl
  simpa using this

/-- C2: when `check_and_update_orders` processes a filled sell at rung `L`
with fill price `p` and quantity `q` on a grid with center `c`, it adds
exactly `(p - c) * q` to `realized_profit`, subtracts the sell's proceeds
from `total_invested`, places a new buy limit order for `qty_per_level` at
rung `L-1` (pinned through the `place_buy` hypothesis), and resets the
original `GridLevel` at that rung to `open` with the fresh order id and
cleared `filled_qty`/`filled_price`. -/
theorem check_and_update_sell_fill_books_profit (grid : GridState) (bk : UpdBroker)
    (now : Datetime) (P S : List GridLevel) (l : GridLevel) (oid bid : String)
    (o : BrokerOrder) (ids : List String)
    (hlv : grid.levels = P ++ l :: S)
    (hst : grid.status = "active")
    (hbk : bk.open_orders = Except.ok ids)
    (hopen : l.status = "open") (hid : l.order_id = some oid) (hne : oid ≠ "")
    (hnotin : oid ∉ ids)
    (hget : bk.get_order oid = some o) (hfill : o.status = "filled")
    (hsell : l.order_type = "sell")
    (hplace : bk.place_buy (l.level - 1)
        (round2 (grid.center_price * (1 - 2/100 * (((l.level - 1 : Int)).natAbs : ℚ))))
        grid.qty_per_level =
      some bid)
    (hP : ∀ x ∈ P, NoTrip ids bk.get_order x)
    (hS : ∀ x ∈ S, NoTrip ids bk.get_order x)
    (hbid : IdSettled bk.get_order bid) :
    ∃ g2, (check_and_update_orders (some grid) bk now).grid = some g2 ∧
      (check_and_update_orders (some grid) bk now).results = ⟨0, 1, 1⟩ ∧
      g2.realized_profit = grid.realized_profit +
        (o.filled_avg_price - grid.center_price) * o.filled_qty ∧
      g2.total_invested = grid.total_invested - o.filled_avg_price * o.filled_qty ∧
      (∀ x, grid.levels.find? (fun y => y.level == l.level - 1) = some x →
        g2.get_level (l.level - 1) = some { x with
                                            order_id := some bid
                                            status := "open"
                                            filled_qty := 0
                                            filled_price := none }) := by
  have hrun := sellFillRun grid bk now P S l oid bid o ids hlv hst hbk hopen hid hne
    hnotin hget hfill hsell hplace hP hS hbid
  have hll : (fun y : GridLevel => y.level == l.level - 1) l = false := by
    simp; omega
  have hllf : (fun y : GridLevel => y.level == l.level - 1) (fillLevel l o) = false := by
    simp [fillLevel]; omega
  rw [hrun]
  refine ⟨_, rfl, rfl, rfl, rfl, ?_⟩
  intro x hx
  have hfind : (P ++ fillLevel l o :: S).find? (fun y => y.level == l.level - 1) = some x := by
    rw [find?_append_cons_of_ne _ P S l (fillLevel l o) hll hllf]
    rw [← hlv]
    exact hx
  unfold GridState.get_level
  exact find?_updateFirst _ _ (fun y hy => by simpa using hy) _ x hfind

/-- C2 witness: a filled sell at price 106, qty 5, center 100 books exactly
30 of realized profit and resets the rung-0 buy to `open` with the fresh
order id `B9` and cleared fills. -/
theorem check_and_update_sell_fill_books_profit_witness :
    ∃ g2, (check_and_update_orders (some wSellGrid) wSellBk d0).grid = some g2 ∧
      (check_and_update_orders (some wSellGrid) wSellBk d0).results = ⟨0, 1, 1⟩ ∧
      g2.realized_profit = 30 ∧
      g2.get_level 0 = some ⟨0, 98, "buy", some "B9", "open", 0, none⟩ := by
  obtain ⟨g2, h1, h2, h3, h4, h5⟩ := check_and_update_sell_fill_books_profit
    wSellGrid wSellBk d0
    [⟨0, 98, "buy", some "OLD", "filled", 5, some 98⟩] []
    ⟨1, 102, "sell", some "S1", "open", 0, none⟩
    "S1" "B9" ⟨"filled", 5, 106⟩ []
    rfl rfl rfl rfl rfl (by decide) (by decide) rfl rfl rfl rfl
    (by
      intro x hx
      simp only [List.mem_cons, List.not_mem_nil, or_false] at hx
      subst hx
      exact noTrip_of_not_open (by decide))
    (by intro x hx; cases hx)
    (Or.inr ⟨⟨"new", 0, 0⟩, rfl, by decide, by decide, by decide, by decide⟩)
  refine ⟨g2, h1, h2, ?_, ?_⟩
  · rw [h3]
    norm_num [wSellGrid]
  · have := h5 ⟨0, 98, "buy", some "OLD", "filled", 5, some 98⟩ rfl
    simpa using this

/-- C3 (amended): a processed buy fill increases `total_invested` by exactly
the buy's `filled_price * filled_qty`, but the paired sell fill decreases it
by the sell's own `filled_price * filled_qty` (not by the buy's amount), so
a completed round trip changes `total_invested` by the price difference
times quantity instead of leaving it unchanged. -/
theorem total_invested_deltas_on_fills :
    (∀ (grid : GridState) (bk : UpdBroker) (now : Datetime) (P S : List GridLevel)
        (l : GridLevel) (oid sid : String) (o : BrokerOrder) (ids : List String),
      grid.levels = P ++ l :: S → grid.status = "active" →
      bk.open_orders = Except.ok ids →
      l.status = "open" → l.order_id = some oid → oid ≠ "" → oid ∉ ids →
      bk.get_order oid = some o → o.status = "filled" → l.order_type = "buy" →
      bk.place_sell l.level
          (round2 (grid.center_price * (1 + 2/100 * ((l.level + 1 : Int) : ℚ))))
          o.filled_qty = some sid →
      (∀ x ∈ P, NoTrip ids bk.get_order x) → (∀ x ∈ S, NoTrip ids bk.get_order x) →
      IdSettled bk.get_order sid →
      ∃ g2, (check_and_update_orders (some grid) bk now).grid = some g2 ∧
        g2.total_invested = grid.total_invested + o.filled_avg_price * o.filled_qty) ∧
    (∀ (grid : GridState) (bk : UpdBroker) (now : Datetime) (P S : List GridLevel)
        (l : GridLevel) (oid bid : String) (o : BrokerOrder) (ids : List String),
      grid.levels = P ++ l :: S → grid.status = "active" →
      bk.open_orders = Except.ok ids →
      l.status = "open" → l.order_id = some oid → oid ≠ "" → oid ∉ ids →
      bk.get_order oid = some o → o.status = "filled" → l.order_type = "sell" →
      bk.place_buy (l.level - 1)
          (round2 (grid.center_price * (1 - 2/100 * (((l.level - 1 : Int)).natAbs : ℚ))))
          grid.qty_per_level = some bid →
      (∀ x ∈ P, NoTrip ids bk.get_order x) → (∀ x ∈ S, NoTrip ids bk.get_order x) →
      IdSettled bk.get_order bid →
      ∃ g2, (check_and_update_orders (some grid) bk now).grid = some g2 ∧
        g2.total_invested = grid.total_invested - o.filled_avg_price * o.filled_qty) := by
  constructor
  · intro grid bk now P S l oid sid o ids hlv hst hbk hopen hid hne hnotin hget hfill
      hbuy hplace hP hS hsid
    rw [buyFillRun grid bk now P S l oid sid o ids hlv hst hbk hopen hid hne hnotin
      hget hfill hbuy hplace hP hS hsid]
    exact ⟨_, rfl, rfl⟩
  · intro grid bk now P S l oid bid o ids hlv hst hbk hopen hid hne hnotin hget hfill
      hsell hplace hP hS hbid
    rw [sellFillRun grid bk now P S l oid bid o ids hlv hst hbk hopen hid hne hnotin
      hget hfill hsell hplace hP hS hbid]
    exact ⟨_, rfl, rfl⟩

/-- C3 witness: the buy scenario increases `total_invested` by `98 * 5` and
the sell scenario decreases it by the sell's `106 * 5`. -/
theorem total_invested_deltas_on_fills_witness :
    (∃ g2, (check_and_update_orders (some wBuyGrid) wBuyBk d0).grid = some g2 ∧
      g2.total_invested = wBuyGrid.total_invested + 98 * 5) ∧
    (∃ g2, (check_and_update_orders (some wSellGrid) wSellBk d0).grid = some g2 ∧
      g2.total_invested = wSellGrid.total_invested - 106 * 5) := by
  constructor
  · exact total_invested_deltas_on_fills.1 wBuyGrid wBuyBk d0
      [] [⟨1, 102, "sell", none, "pending", 0, none⟩]
      ⟨-1, 98, "buy", some "B", "open", 0, none⟩
      "B" "S" ⟨"filled", 5, 98⟩ []
      rfl rfl rfl rfl rfl (by decide) (by decide) rfl rfl rfl rfl
      (by intro x hx; cases hx)
      (by
        intro x hx
        simp only [List.mem_cons, List.not_mem_nil, or_false] at hx
        subst hx
        exact noTrip_of_not_open (by decide))
      (Or.inr ⟨⟨"new", 0, 0⟩, rfl, by decide, by decide, by decide, by decide⟩)
  · exact total_invested_deltas_on_fills.2 wSellGrid wSellBk d0
      [⟨0, 98, "buy", some "OLD", "filled", 5, some 98⟩] []
      ⟨1, 102, "sell", some "S1", "open", 0, none⟩
      "S1" "B9" ⟨"filled", 5, 106⟩ []
      rfl rfl rfl rfl rfl (by decide) (by decide) rfl rfl rfl rfl
      (by
        intro x hx
        simp only [List.mem_cons, List.not_mem_nil, or_false] at hx
        subst hx
        exact noTrip_of_not_open (by decide))
      (by intro x hx; cases hx)
      (Or.inr ⟨⟨"new", 0, 0⟩, rfl, by decide, by decide, by decide, by decide⟩)

/-- C3 counterexample: in the concrete round trip (buy fills at 98 for qty
5, paired sell fills at 106 for qty 5, center 100), `total_invested` goes
from 0 to 490 after the buy fill and to `490 - 530 = -40` after the sell
fill, so the completed round trip does not leave it unchanged. -/
theorem round_trip_changes_total_invested :
    roundTripGrid1.map GridState.total_invested = some 490 ∧
    roundTripGrid2.map GridState.total_invested = some (-40) ∧
    ((-40 : ℚ) ≠ 0) := by
  have hsb : ("sell" : String) ≠ "buy" := by decide
  have hpl : (place_grid_orders (some (initialize_grid "X" 100 2 1 5 d0)) roundTripPlace d0).grid =
      some { symbol := "X"
             center_price := 100
             qty_per_level := 5
             levels := [⟨-1, 98, "buy", some "B1", "open", 0, none⟩,
                        ⟨1, 102, "sell", none, "pending", 0, none⟩]
             total_invested := 0
             realized_profit := 0
             status := "active"
             last_updated := d0 } := by
    norm_num [place_grid_orders, placeLoop, initialize_grid, List.range_succ, roundTripPlace,
      round2, roundHalfEven, hsb]
  have h1 : roundTripGrid1 =
      some { symbol := "X"
             center_price := 100
             qty_per_level := 5
             levels := [⟨-1, 98, "buy", some "B1", "filled", 5, some 98⟩,
                        ⟨1, 102, "sell", none, "pending", 0, none⟩,
                        ⟨0, 100, "sell", some "S0", "open", 0, none⟩]
             total_invested := 490
             realized_profit := 0
             status := "active"
             last_updated := d0 } := by
    unfold roundTripGrid1
    rw [hpl]
    rw [buyFillRun _ roundTripBk1 d0
      [] [⟨1, 102, "sell", none, "pending", 0, none⟩]
      ⟨-1, 98, "buy", some "B1", "open", 0, none⟩
      "B1" "S0" ⟨"filled", 5, 98⟩ []
      rfl rfl rfl rfl rfl (by decide) (by decide) rfl rfl rfl rfl
      (by intro x hx; cases hx)
      (by
        intro x hx
        simp only [List.mem_cons, List.not_mem_nil, or_false] at hx
        subst hx
        exact noTrip_of_not_open (by decide))
      (Or.inr ⟨⟨"new", 0, 0⟩, rfl, by decide, by decide, by decide, by decide⟩)]
    norm_num [fillLevel, openSell, round2, roundHalfEven]
  have h2 : roundTripGrid2 =
      some { symbol := "X"
             center_price := 100
             qty_per_level := 5
             levels := [⟨-1, 98, "buy", some "B2", "open", 0, none⟩,
                        ⟨1, 102, "sell", none, "pending", 0, none⟩,
                        ⟨0, 100, "sell", some "S0", "filled", 5, some 106⟩]
             total_invested := -40
             realized_profit := 30
             status := "active"
             last_updated := d0 } := by
    unfold roundTripGrid2
    rw [h1]
    rw [sellFillRun _ roundTripBk2 d0
      [⟨-1, 98, "buy", some "B1", "filled", 5, some 98⟩,
       ⟨1, 102, "sell", none, "pending", 0, none⟩] []
      ⟨0, 100, "sell", some "S0", "open", 0, none⟩
      "S0" "B2" ⟨"filled", 5, 106⟩ []
      rfl rfl rfl rfl rfl (by decide) (by decide) rfl rfl rfl rfl
      (by
        intro x hx
        simp only [List.mem_cons, List.not_mem_nil, or_false] at hx
        rcases hx with rfl | rfl <;> exact noTrip_of_not_open (by decide))
      (by intro x hx; cases hx)
      (Or.inr ⟨⟨"new", 0, 0⟩, rfl, by decide, by decide, by decide, by decide⟩)]
    norm_num [fillLevel, updateFirst]
  refine ⟨?_, ?_, by norm_num⟩
  · rw [h1]; rfl
  · rw [h2]; rfl

/-- With an always-succeeding broker cancel, `cancel_all_orders`'s loop
marks exactly the open levels with truthy order ids as `cancelled`. -/
theorem cancelLoop_fst_all (cancel : String → Bool) (hc : ∀ s, cancel s = true) :
    ∀ ls : List GridLevel, (cancelLoop cancel ls).1 =
      ls.map (fun l => match l.order_id with
        | some oid => if l.status = "open" ∧ oid ≠ "" then { l with status := "cancelled" } else l
        | none => l) := by
  intro ls
  induction ls with
  | nil => rfl
  | cons l ls ih =>
    cases hoid : l.order_id with
    | none => simp [cancelLoop, hoid, ih]
    | some oid =>
      by_cases hcond : l.status = "open" ∧ oid ≠ ""
      · simp [cancelLoop, hoid, hcond, hc oid, ih]
      · simp [cancelLoop, hoid, hcond, ih]

/-- C4: when the current price breaks the boundary band around the center,
the per-symbol handling takes the `boundary_stop` action, which cancels
every open order (marking those levels `cancelled`, given the broker
cancels succeed) and sets the grid `stopped`; a subsequent cycle for the
same symbol with a positive computed quantity takes the `initialize` action
and produces a fresh `active` grid with zero accounting around the newly
resolved center, rather than resuming the stopped one. -/
theorem boundary_break_stops_then_reinitializes
    (env1 env2 : ManageEnv) (sym : String) (g : GridState) (p1 p2 : ℚ)
    (hp1 : env1.current_price = some p1) (hp1ne : p1 ≠ 0)
    (hst : g.status ≠ "stopped")
    (hbreak : p1 > g.center_price * (1 + env1.boundary_stop_pct / 100) ∨
              p1 < g.center_price * (1 - env1.boundary_stop_pct / 100))
    (hcancel : ∀ s, env1.cancel s = true)
    (hp2 : env2.current_price = some p2) (hp2ne : p2 ≠ 0)
    (hqty : 0 < env2.qty_calc) :
    ∃ g1, manage_symbol_grid env1 sym (some g) = ("boundary_stop", some g1) ∧
      g1.status = "stopped" ∧
      g1.levels = g.levels.map (fun l => match l.order_id with
        | some oid => if l.status = "open" ∧ oid ≠ "" then { l with status := "cancelled" } else l
        | none => l) ∧
      ∃ g2, manage_symbol_grid env2 sym (some g1) = ("initialize", some g2) ∧
        g2.status = "active" ∧ g2.total_invested = 0 ∧ g2.realized_profit = 0 ∧
        g2.center_price = resolve_center env2.center_calc p2 ∧
        g2.qty_per_level = env2.qty_calc := by
  have hb : check_boundary_break (some g) p1 env1.boundary_stop_pct = true := by
    simp [check_boundary_break, get_grid_status]
    exact hbreak
  have hcl := cancelLoop_fst_all env1.cancel hcancel g.levels
  have hstop : manage_symbol_grid env1 sym (some g) =
      ("boundary_stop", some { g with
        levels := g.levels.map (fun l => match l.order_id with
          | some oid => if l.status = "open" ∧ oid ≠ "" then { l with status := "cancelled" } else l
          | none => l)
        status := "stopped"
        last_updated := env1.now }) := by
    simp [manage_symbol_grid, hp1, hp1ne, get_grid_status, hst, hb, stop_grid,
      cancel_all_orders, hcl]
  refine ⟨_, hstop, rfl, rfl, ?_⟩
  have hinit : manage_symbol_grid env2 sym
      (some { g with
        levels := g.levels.map (fun l => match l.order_id with
          | some oid => if l.status = "open" ∧ oid ≠ "" then { l with status := "cancelled" } else l
          | none => l)
        status := "stopped"
        last_updated := env1.now }) =
      ("initialize",
       (place_grid_orders
         (some (initialize_grid sym (resolve_center env2.center_calc p2) env2.spacing_pct
           env2.num_levels env2.qty_calc env2.now)) env2.place env2.now).grid) := by
    simp [manage_symbol_grid, hp2, hp2ne, get_grid_status, initialize_new_grid,
      not_le.mpr hqty]
  have hplaced : (place_grid_orders
      (some (initialize_grid sym (resolve_center env2.center_calc p2) env2.spacing_pct
        env2.num_levels env2.qty_calc env2.now)) env2.place env2.now).grid =
      some { initialize_grid sym (resolve_center env2.center_calc p2) env2.spacing_pct
              env2.num_levels env2.qty_calc env2.now with
             levels := (placeLoop env2.qty_calc env2.place
               (initialize_grid sym (resolve_center env2.center_calc p2) env2.spacing_pct
                 env2.num_levels env2.qty_calc env2.now).levels).1
             last_updated := env2.now } := by
    simp [place_grid_orders, initialize_grid]
  refine ⟨{ initialize_grid sym (resolve_center env2.center_calc p2) env2.spacing_pct
            env2.num_levels env2.qty_calc env2.now with
            levels := (placeLoop env2.qty_calc env2.place
              (initialize_grid sym (resolve_center env2.center_calc p2) env2.spacing_pct
                env2.num_levels env2.qty_calc env2.now).levels).1
            last_updated := env2.now }, ?_, rfl, rfl, rfl, rfl, rfl⟩
  rw [hinit, hplaced]

/-- C4 witness: a price of 120 breaks the 10 percent band around center 100;
the grid is stopped and the next cycle re-initializes an active grid. -/
theorem boundary_break_stops_then_reinitializes_witness :
    ∃ g1, manage_symbol_grid wStopEnv "BTC/USD" (some wMixedGrid) = ("boundary_stop", some g1) ∧
      g1.status = "stopped" ∧
      ∃ g2, manage_symbol_grid wStopEnv "BTC/USD" (some g1) = ("initialize", some g2) ∧
        g2.status = "active" := by
  obtain ⟨g1, ha, hb, _, g2, hd, he, _⟩ := boundary_break_stops_then_reinitializes
    wStopEnv wStopEnv "BTC/USD" wMixedGrid 120 120 rfl (by norm_num) (by decide)
    (Or.inl (by norm_num [wStopEnv, wMixedGrid])) (fun _ => rfl) rfl (by norm_num)
    (by norm_num [wStopEnv])
  exact ⟨g1, ha, hb, g2, hd, he⟩
